import Mathlib

/-!
# Lacewing datagram engine and relay-server host policy

A shallow embedding of

* `Lacewing/src/windows/udp.c`: the refcounted datagram context, its ring of
  posted receives, the send path and the completion handler;
* `POSIXMain.cpp`: the handlers of the host (`OnConnectRequest`,
  `OnDisconnect`, `OnTimerTick`, `OnServerMessage`, `OnPeerMessage`,
  `OnChannelMessage`, `IncrementClient`) over its global variables: the ban
  list, the per-client statistics and the message counters.

The C state is passed explicitly.  The context `lw_udp` sits in a `World`
together with what the C code relies on but does not own: the overlapped
requests currently held by the kernel, an allocation counter giving fresh
pointers, the trace of hook invocations and socket calls, and a fault flag set
when the process aborts (failed `assert`, `exit`, write through a null
pointer).  Every nondeterministic result of the operating system (allocation
results, the result of `WSARecvFrom` / `WSASendTo`, socket creation) is an
explicit argument.
-/

namespace Lacewing

/-! ## Constants of udp.c -/

/-- The constant `ideal_pending_receive_count` (udp.c line 33). -/
def ideal_pending_receive_count : Int := 16

/-- The macro `overlapped_type_send`. -/
def overlapped_type_send : Nat := 1

/-- The macro `overlapped_type_receive`. -/
def overlapped_type_receive : Nat := 2

/-- The Winsock error code `WSA_IO_PENDING`: the request was queued and will
complete asynchronously.  Its numeric value is immaterial to the code, which
only compares against it. -/
def WSA_IO_PENDING : Int := 997

/-! ## Data model -/

/-- Ways in which the process stops inside the datagram engine: the write
through a null `malloc` result in `udp_receive_info_new`, `exit (ENOMEM)` in
`lw_udp_send`, and the failure of the assertion of `lw_udp_dealloc`, of the size
assertion of `lw_udp_send`, or of `assert (0)` in `udp_socket_completion`. -/
inductive Fault
  | null_dereference
  | exit_enomem
  | assert_dealloc
  | assert_size
  | assert_type
  deriving DecidableEq, Repr

/-- A resolved network endpoint (what a `sockaddr` denotes). -/
abbrev Endpoint := Nat

/-- The address object `lw_addr` as far as `lw_udp_send` inspects it:
`lw_addr_ready (addr)` and `addr->info`. -/
structure lw_addr where
  ready : Bool
  info : Option Endpoint
  deriving DecidableEq, Repr

/-- The filter `lw_filter` as far as udp.c uses it. -/
structure lw_filter where
  remote : Option Endpoint
  local_port : Int
  ipv6 : Bool
  deriving DecidableEq, Repr

/-- One line added to an `lw_error`. -/
inductive ErrorItem
  | address_not_ready
  | error_sending_datagram
  | wsa_code (code : Int)
  | create_server_socket (detail : Nat)
  deriving DecidableEq, Repr

/-- Observable calls made by the engine: hook invocations and the socket
teardown calls of `lw_udp_unhost`. -/
inductive Event
  | on_data (sender : Endpoint) (data : List Nat) (bytes_transferred : Nat)
  | on_error (error : List ErrorItem)
  | lwp_close_socket (socket : Nat)
  | lw_pump_post_remove (watch : Option Nat)
  deriving DecidableEq, Repr

/-- The struct `_udp_overlapped`: the pointer identifying the request, its
`type` and its `tag` (the receive slot for a receive, 0 for a send). -/
structure udp_overlapped where
  ptr : Nat
  type : Nat
  tag : Option Nat
  deriving DecidableEq, Repr

/-- The struct `_lw_udp`.  `refcount` is the counter of `lwp_refcounted`;
`on_data` / `on_error` record whether the hook pointer is non-null;
`socket = none` is `INVALID_SOCKET`; `filter = none` is the null filter. -/
structure lw_udp where
  refcount : Int
  pump_watch : Option Nat
  on_data : Bool
  on_error : Bool
  filter : Option lw_filter
  port : Int
  socket : Option Nat
  pending_receives : List Nat
  receives_posted : Int
  writes_posted : Int
  deriving DecidableEq, Repr

/-- The context together with its environment.

* `freed`: `free (ctx)` has run in `lw_udp_dealloc`;
* `owner`: the reference taken by `lw_udp_new` ("udp new") has not been
  released yet by `lw_udp_delete`;
* `kernel`: overlapped requests submitted and not yet completed;
* `next_alloc`: the next fresh pointer returned by `malloc` / `calloc`;
* `trace`: hook invocations and socket calls, oldest first;
* `fault`: set when the process has aborted. -/
structure World where
  ctx : lw_udp
  freed : Bool
  owner : Bool
  kernel : List udp_overlapped
  next_alloc : Nat
  trace : List Event
  fault : Option Fault
  deriving DecidableEq, Repr

/-- The result of one iteration of the loop of `post_receives` as decided by
the operating system: whether `malloc` in `udp_receive_info_new` and `calloc`
of the overlapped succeed, and the result of `WSARecvFrom` (`none`: it returned
0; `some e`: it returned `SOCKET_ERROR` with `WSAGetLastError () = e`). -/
structure RecvAttempt where
  info_malloc : Bool
  overlapped_calloc : Bool
  wsa_recv_from : Option Int
  deriving DecidableEq, Repr

/-! ## Reference counting -/

/-- Modelled from the spec: `lwp_retain` of `common.h`, which is not part of
the sources at hand.  "Each posted receive and each posted send holds one
reference": retaining adds one reference. -/
def lwp_retain (w : World) : World :=
  { w with ctx := { w.ctx with refcount := w.ctx.refcount + 1 } }

/-- The function `lw_udp_dealloc`: the assertion, `list_clear` and `free`. -/
def lw_udp_dealloc (w : World) : World :=
  if w.ctx.receives_posted = 0 ∧ w.ctx.writes_posted = 0 then
    { w with ctx := { w.ctx with pending_receives := [] }, freed := true }
  else
    { w with fault := some Fault.assert_dealloc }

/-- Modelled from the spec: `lwp_release` of `common.h`, which is not part of
the sources at hand.  "The deallocator runs when the last reference is
released": releasing drops one reference and, when the count reaches zero, runs
the dealloc procedure registered by `lwp_set_dealloc_proc` (here
`lw_udp_dealloc`) and returns true. -/
def lwp_release (w : World) : Bool × World :=
  let w1 := { w with ctx := { w.ctx with refcount := w.ctx.refcount - 1 } }
  if w1.ctx.refcount = 0 then (true, lw_udp_dealloc w1) else (false, w1)

/-- The function `read_completed`: returns true if the context was freed. -/
def read_completed (w : World) : Bool × World :=
  lwp_release
    { w with ctx := { w.ctx with receives_posted := w.ctx.receives_posted - 1 } }

/-- The function `write_completed`: returns true if the context was freed. -/
def write_completed (w : World) : Bool × World :=
  lwp_release
    { w with ctx := { w.ctx with writes_posted := w.ctx.writes_posted - 1 } }

/-! ## Posting receives -/

/-- The function `udp_receive_info_new`: the result of `malloc` is written
through before it is returned, so a null result stops the process; otherwise
the fresh slot pointer is returned. -/
def udp_receive_info_new (w : World) (malloc_ok : Bool) : World × Option Nat :=
  if malloc_ok then
    ({ w with next_alloc := w.next_alloc + 1 }, some w.next_alloc)
  else
    ({ w with fault := some Fault.null_dereference }, none)

/-- Whether a Winsock call reported a genuine error, that is `SOCKET_ERROR`
with a code other than `WSA_IO_PENDING`. -/
def genuine_error (result : Option Int) : Bool :=
  match result with
  | none => false
  | some e => decide (e ≠ WSA_IO_PENDING)

/-- The `while` loop of `post_receives`.  `env i` is what the operating system
does in iteration `i`; the first argument bounds the number of iterations. -/
def post_receives_loop : Nat → (Nat → RecvAttempt) → Nat → World → World
  | 0, _, _, w => w
  | fuel + 1, env, i, w =>
    if w.ctx.receives_posted < ideal_pending_receive_count then
      match udp_receive_info_new w (env i).info_malloc with
      | (w1, none) =>
        -- reached only with the fault set: the null check of the caller
        -- comes after the write through the pointer
        w1
      | (w1, some receive_info) =>
        if (env i).overlapped_calloc = false then
          -- free (receive_info); break
          w1
        else
          let overlapped : udp_overlapped :=
            { ptr := w1.next_alloc, type := overlapped_type_receive,
              tag := some receive_info }
          let w2 := lwp_retain { w1 with next_alloc := w1.next_alloc + 1 }
          if genuine_error (env i).wsa_recv_from then
            -- free both, release, break
            (lwp_release w2).2
          else
            post_receives_loop fuel env (i + 1)
              { w2 with
                ctx := { w2.ctx with
                  pending_receives := w2.ctx.pending_receives ++ [overlapped.ptr],
                  receives_posted := w2.ctx.receives_posted + 1 },
                kernel := w2.kernel ++ [overlapped] }
    else w

/-- The function `post_receives`.  Every iteration that does not leave the loop
raises `receives_posted` by one, so `ideal_pending_receive_count -
receives_posted` iterations are enough. -/
def post_receives (w : World) (env : Nat → RecvAttempt) : World :=
  post_receives_loop (ideal_pending_receive_count - w.ctx.receives_posted).toNat env 0 w

/-! ## Hosting -/

/-- The function `lw_udp_hosting`. -/
def lw_udp_hosting (ctx : lw_udp) : Bool :=
  ctx.socket != none

/-- The function `lw_udp_unhost`. -/
def lw_udp_unhost (w : World) : World :=
  match w.ctx.socket with
  | none => w
  | some s =>
    { w with
      ctx := { w.ctx with socket := none, filter := none },
      trace := w.trace ++ [Event.lwp_close_socket s,
                           Event.lw_pump_post_remove w.ctx.pump_watch] }

/-- The function `lw_udp_host_filter`.  `create` is the result of
`lwp_create_server_socket`: the new socket and its port, or the error it
filled in when it returned -1. -/
def lw_udp_host_filter (w : World) (filter : lw_filter)
    (create : Except (List ErrorItem) (Nat × Int)) (env : Nat → RecvAttempt) : World :=
  let w1 := if w.ctx.socket ≠ none then lw_udp_unhost w else w
  match create with
  | Except.error error =>
    let w2 := { w1 with ctx := { w1.ctx with socket := none } }
    if w2.ctx.on_error then { w2 with trace := w2.trace ++ [Event.on_error error] }
    else w2
  | Except.ok (socket, port) =>
    post_receives
      { w1 with ctx := { w1.ctx with
          socket := some socket, filter := some filter,
          pump_watch := some socket, port := port } }
      env

/-- The function `lw_udp_host`. -/
def lw_udp_host (w : World) (port : Int)
    (create : Except (List ErrorItem) (Nat × Int)) (env : Nat → RecvAttempt) : World :=
  lw_udp_host_filter w { remote := none, local_port := port, ipv6 := false } create env

/-! ## Completion handler -/

/-- Modelled from the spec: `lw_filter_remote` of the filter module, which is
not part of the sources at hand: the "optional remote-endpoint restriction" of
the filter.  A context without a filter has no restriction. -/
def lw_filter_remote (filter : Option lw_filter) : Option Endpoint :=
  match filter with
  | none => none
  | some f => f.remote

/-- Modelled from the spec: `lw_addr_equal` of the address module, which is not
part of the sources at hand: endpoint addresses "support equality". -/
def lw_addr_equal (a b : Endpoint) : Bool :=
  a == b

/-- The receive case of `udp_socket_completion` up to and including the call
of the `on_data` hook. -/
def deliver (w : World) (sender : Endpoint) (buffer : List Nat)
    (bytes_transferred : Nat) : World :=
  let filter_addr := lw_filter_remote w.ctx.filter
  if w.ctx.on_data &&
      (match filter_addr with
       | none => true
       | some a => lw_addr_equal sender a) then
    { w with trace := w.trace ++
        [Event.on_data sender (buffer.take bytes_transferred) bytes_transferred] }
  else w

/-- The function `udp_socket_completion`, called by the pump with a completed
overlapped request.  `sender` and `buffer` are `info->from` and `info->buffer`
as filled in by the kernel; the error code `_error` is ignored by the handler;
`env` drives the `post_receives` that may follow.
The terminating zero written at `buffer [bytes_transferred]` is not part of the
data handed to the hook and is not tracked here. -/
def udp_socket_completion (w : World) (overlapped : udp_overlapped)
    (bytes_transferred : Nat) (_error : Int) (sender : Endpoint) (buffer : List Nat)
    (env : Nat → RecvAttempt) : World :=
  if overlapped.type = overlapped_type_send then
    (write_completed w).2
  else if overlapped.type = overlapped_type_receive then
    let w1 := deliver w sender buffer bytes_transferred
    let w2 := { w1 with ctx := { w1.ctx with
                  pending_receives := w1.ctx.pending_receives.erase overlapped.ptr } }
    match read_completed w2 with
    | (true, w3) => w3
    | (false, w3) => post_receives w3 env
  else
    { w with fault := some Fault.assert_type }

/-- The pump takes a completed request out of the kernel queue before it calls
the handler. -/
def complete (w : World) (overlapped : udp_overlapped)
    (bytes_transferred : Nat) (error : Int) (sender : Endpoint) (buffer : List Nat)
    (env : Nat → RecvAttempt) : World :=
  udp_socket_completion { w with kernel := w.kernel.erase overlapped }
    overlapped bytes_transferred error sender buffer env

/-! ## Creation, deletion, send -/

/-- The function `lw_udp_new`: `none` when `calloc` fails. -/
def lw_udp_new (calloc_ok : Bool) : Option World :=
  if calloc_ok then
    some
      { ctx :=
          { refcount := 1, pump_watch := none, on_data := false, on_error := false,
            filter := none, port := 0, socket := none, pending_receives := [],
            receives_posted := 0, writes_posted := 0 },
        freed := false, owner := true, kernel := [], next_alloc := 0,
        trace := [], fault := none }
  else none

/-- The hook setters generated by `lwp_def_hook (udp, data)`. -/
def lw_udp_on_data (w : World) (hook : Bool) : World :=
  { w with ctx := { w.ctx with on_data := hook } }

/-- The hook setters generated by `lwp_def_hook (udp, error)`. -/
def lw_udp_on_error (w : World) (hook : Bool) : World :=
  { w with ctx := { w.ctx with on_error := hook } }

/-- The function `lw_udp_delete` on a non-null context: the owner reference is
given up. -/
def lw_udp_delete (w : World) : World :=
  match lwp_release { w with owner := false } with
  | (true, w1) => w1
  | (false, w1) => if w1.ctx.socket ≠ none then lw_udp_unhost w1 else w1

/-- The C function `strlen`. -/
def strlen (buffer : List Nat) : Nat :=
  (buffer.takeWhile (fun b => b != 0)).length

/-- The function `lw_udp_send`.  `addr = none` is the null address;
`size = 2 ^ 64 - 1` is the `-1` asking for `strlen` (`size_t` of 64 bits, for
which the size assertion is compiled in); `calloc_ok` is the result
of allocating the overlapped; `wsa_send_to` is the result of `WSASendTo`
(`none`: it returned 0; `some e`: `SOCKET_ERROR` with code `e`). -/
def lw_udp_send (w : World) (addr : Option lw_addr) (buffer : List Nat) (size : Nat)
    (calloc_ok : Bool) (wsa_send_to : Option Int) : World :=
  match addr with
  | none =>
    if w.ctx.on_error then
      { w with trace := w.trace ++
          [Event.on_error [ErrorItem.address_not_ready, ErrorItem.error_sending_datagram]] }
    else w
  | some a =>
    if a.ready = false ∨ a.info = none then
      if w.ctx.on_error then
        { w with trace := w.trace ++
            [Event.on_error [ErrorItem.address_not_ready, ErrorItem.error_sending_datagram]] }
      else w
    else
      let size1 := if size = 2 ^ 64 - 1 then strlen buffer else size
      if ¬ (size1 < 0xFFFFFFFF) then
        { w with fault := some Fault.assert_size }
      else if calloc_ok = false then
        { w with fault := some Fault.exit_enomem }
      else
        let overlapped : udp_overlapped :=
          { ptr := w.next_alloc, type := overlapped_type_send, tag := none }
        let w1 := { w with next_alloc := w.next_alloc + 1 }
        if a.info = none then w1
        else
          let w2 := lwp_retain
            { w1 with ctx := { w1.ctx with writes_posted := w1.ctx.writes_posted + 1 } }
          match wsa_send_to with
          | none =>
            -- completed synchronously; the completion is still delivered
            { w2 with kernel := w2.kernel ++ [overlapped] }
          | some code =>
            if code = WSA_IO_PENDING then
              { w2 with kernel := w2.kernel ++ [overlapped] }
            else
              -- free (overlapped); report
              if w2.ctx.on_error then
                { w2 with trace := w2.trace ++
                    [Event.on_error [ErrorItem.wsa_code code,
                                     ErrorItem.error_sending_datagram]] }
              else w2

/-! ## Reachable states of the datagram engine -/

/-- The number of requests of the given overlapped type held by the kernel. -/
def posted (type : Nat) (kernel : List udp_overlapped) : Nat :=
  kernel.countP (fun o => o.type == type)

/-- A context that can still be used: it has not been freed and the process has
not aborted. -/
def World.live (w : World) : Prop :=
  w.freed = false ∧ w.fault = none

instance (w : World) : Decidable w.live := by
  unfold World.live
  exact inferInstance

/-- States reachable from `lw_udp_new` by calls of the public functions and by
I/O completions, with every choice left to the operating system arbitrary.

* The public functions are called on a context that has not been freed.
* `lw_udp_delete` gives up the reference taken by `lw_udp_new`, so it is
  called while that reference is held (once per context).
* A completion is delivered for a request the kernel holds, that is for a
  request posted before and not completed yet. -/
inductive Reachable : World → Prop
  | new {w : World} (h : lw_udp_new true = some w) : Reachable w
  | on_data {w : World} (hw : Reachable w) (live : w.live) (hook : Bool) :
      Reachable (lw_udp_on_data w hook)
  | on_error {w : World} (hw : Reachable w) (live : w.live) (hook : Bool) :
      Reachable (lw_udp_on_error w hook)
  | host_filter {w : World} (hw : Reachable w) (live : w.live) (filter : lw_filter)
      (create : Except (List ErrorItem) (Nat × Int)) (env : Nat → RecvAttempt) :
      Reachable (lw_udp_host_filter w filter create env)
  | unhost {w : World} (hw : Reachable w) (live : w.live) :
      Reachable (lw_udp_unhost w)
  | send {w : World} (hw : Reachable w) (live : w.live) (addr : Option lw_addr)
      (buffer : List Nat) (size : Nat) (calloc_ok : Bool) (wsa_send_to : Option Int) :
      Reachable (lw_udp_send w addr buffer size calloc_ok wsa_send_to)
  | delete {w : World} (hw : Reachable w) (live : w.live) (owned : w.owner = true) :
      Reachable (lw_udp_delete w)
  | completion {w : World} (hw : Reachable w) (running : w.fault = none)
      (overlapped : udp_overlapped) (held : overlapped ∈ w.kernel)
      (bytes_transferred : Nat) (error : Int) (sender : Endpoint) (buffer : List Nat)
      (env : Nat → RecvAttempt) :
      Reachable (complete w overlapped bytes_transferred error sender buffer env)

/-- The owner reference: 1 until `lw_udp_delete`, then 0. -/
def owner_reference (w : World) : Int :=
  if w.owner then 1 else 0

/-- The accounting invariant of the context. -/
structure Inv (w : World) : Prop where
  refs : w.ctx.refcount = owner_reference w + w.ctx.receives_posted + w.ctx.writes_posted
  recvs : (posted overlapped_type_receive w.kernel : Int) = w.ctx.receives_posted
  sends : (posted overlapped_type_send w.kernel : Int) ≤ w.ctx.writes_posted
  types : ∀ o ∈ w.kernel, o.type = overlapped_type_send ∨ o.type = overlapped_type_receive
  upper : w.ctx.receives_posted ≤ ideal_pending_receive_count
  no_assert : w.fault ≠ some Fault.assert_dealloc
  alive : w.freed = false → 0 < w.ctx.refcount
  drained : w.freed = true → w.kernel = []

/-- An operating system on which every receive can be posted. -/
def always_pending : Nat → RecvAttempt :=
  fun _ => { info_malloc := true, overlapped_calloc := true,
             wsa_recv_from := some WSA_IO_PENDING }

/-- An operating system on which `WSARecvFrom` fails with `WSAENOTSOCK`. -/
def always_failing : Nat → RecvAttempt :=
  fun _ => { info_malloc := true, overlapped_calloc := true,
             wsa_recv_from := some 10038 }

/-- Every attempt of `env` allocates both blocks and posts the receive. -/
def all_succeed (env : Nat → RecvAttempt) : Prop :=
  ∀ i, (env i).info_malloc = true ∧ (env i).overlapped_calloc = true ∧
    genuine_error (env i).wsa_recv_from = false

/-- The context right after a successful `lw_udp_new`. -/
def fresh : World :=
  { ctx :=
      { refcount := 1, pump_watch := none, on_data := false, on_error := false,
        filter := none, port := 0, socket := none, pending_receives := [],
        receives_posted := 0, writes_posted := 0 },
    freed := false, owner := true, kernel := [], next_alloc := 0,
    trace := [], fault := none }

/-- A context with both hooks set, hosting on port 6121 with all 16 receives
posted. -/
def hosting : World :=
  lw_udp_host (lw_udp_on_error (lw_udp_on_data fresh true) true) 6121
    (Except.ok (5, 6121)) always_pending

/-- The number of `on_error` invocations in a trace. -/
def on_error_calls (t : List Event) : Nat :=
  t.countP (fun e => match e with
    | Event.on_error _ => true
    | _ => false)

/-- The number of `on_data` invocations in a trace. -/
def on_data_calls (t : List Event) : Nat :=
  t.countP (fun e => match e with
    | Event.on_data _ _ _ => true
    | _ => false)

/-- The hosting context after `lw_udp_delete`: the 16 posted receives keep it
allocated. -/
def deleted_while_hosting : World :=
  lw_udp_delete hosting

/-- The hosting context hosted again on another port while the old receives
are still posted. -/
def rehosted : World :=
  lw_udp_host hosting 6122 (Except.ok (6, 6122)) always_failing

/-- A context hosting with a filter that admits only endpoint 7. -/
def filtered : World :=
  lw_udp_host_filter (lw_udp_on_error (lw_udp_on_data fresh true) true)
    { remote := some 7, local_port := 0, ipv6 := false }
    (Except.ok (5, 6121)) always_pending

/-- A context with `on_error` set and a socket bound, as `lw_udp_host_filter`
hands it to `post_receives`. -/
def bound : World :=
  { fresh with
    ctx := { fresh.ctx with
      on_error := true, socket := some 5, pump_watch := some 5, port := 6121,
      filter := some { remote := none, local_port := 6121, ipv6 := false } } }

/-- An operating system that posts the first three receives and then fails
`WSARecvFrom` with `WSAENOBUFS`. -/
def three_then_failing : Nat → RecvAttempt :=
  fun i => { info_malloc := true, overlapped_calloc := true,
             wsa_recv_from := if i < 3 then some WSA_IO_PENDING else some 10055 }

/-! ## The receive slot -/

/-- The struct `_udp_receive_info` as `udp_receive_info_new` sets it up, as far
as sizes go: the number of elements of the array `buffer` and the length
`winsock_buffer.len` handed to `WSARecvFrom`. -/
structure udp_receive_info where
  buffer_elements : Nat
  winsock_buffer_len : Nat
  deriving DecidableEq, Repr

/-- The sizes set by `udp_receive_info_new`: `char buffer
[lwp_default_buffer_size]` and `winsock_buffer.len = sizeof (info->buffer)`.
The constant `lwp_default_buffer_size` is defined in `common.h`, which is not
part of the sources at hand, so it is an argument. -/
def udp_receive_info_sizes (lwp_default_buffer_size : Nat) : udp_receive_info :=
  { buffer_elements := lwp_default_buffer_size,
    winsock_buffer_len := lwp_default_buffer_size }

/-- The index at which `udp_socket_completion` writes the terminating zero:
`info->buffer [bytes_transferred] = 0`. -/
def terminator_index (bytes_transferred : Nat) : Nat :=
  bytes_transferred

/-- An index lies inside the array `buffer` of the slot. -/
def inside_buffer (info : udp_receive_info) (index : Nat) : Bool :=
  decide (index < info.buffer_elements)

end Lacewing

/-! ## Host policy of POSIXMain.cpp -/

namespace Relay

/-- Conversion to the type `int` (32 bits, two's complement). -/
def to_int (x : Int) : Int :=
  (x + 2147483648) % 4294967296 - 2147483648

/-- Conversion to the types `size_t` and `std::uint64_t` (64 bits). -/
def to_size_t (n : Nat) : Nat :=
  n % 18446744073709551616

/-- The struct `BanEntry`. -/
structure BanEntry where
  ip : String
  disconnects : Int
  reason : String
  resetAt : Int
  deriving DecidableEq, Repr

/-- A handle `std::shared_ptr<lacewing::relayserver::client>`: the object it
points to (two handles are equal when they point to the same object), and what
never changes for that object: its id and the raw address text of
`getaddress ().data ()`.  The name and the trusted flag of the object change
over time and are arguments of the handlers that read them. -/
structure client where
  ptr : Nat
  id : Nat
  address : String
  deriving DecidableEq, Repr

/-- The struct `clientstats`, with the fields of the upload-cap build. -/
structure clientstats where
  c : client
  totalBytesIn : Nat
  totalNumMessagesIn : Nat
  wastedServerMessages : Nat
  bytesIn : Nat
  numMessagesIn : Nat
  exceeded : Bool
  deriving DecidableEq, Repr

/-- The constructor of `clientstats`. -/
def clientstats.new (c : client) : clientstats :=
  { c := c, totalBytesIn := 0, totalNumMessagesIn := 0, wastedServerMessages := 0,
    bytesIn := 0, numMessagesIn := 0, exceeded := false }

/-- The global variables the handlers work on. -/
structure Globals where
  banIPList : List BanEntry
  clientdata : List clientstats
  maxClients : Nat
  maxChannels : Nat
  totalNumMessagesIn : Nat
  totalNumMessagesOut : Nat
  totalBytesIn : Nat
  totalBytesOut : Nat
  maxNumMessagesIn : Nat
  maxNumMessagesOut : Nat
  maxBytesInInOneSec : Nat
  maxBytesOutInOneSec : Nat
  numMessagesIn : Nat
  numMessagesOut : Nat
  bytesIn : Nat
  bytesOut : Nat
  deriving DecidableEq, Repr

/-- The globals at program start. -/
def Globals.start : Globals :=
  { banIPList := [], clientdata := [], maxClients := 0, maxChannels := 0,
    totalNumMessagesIn := 0, totalNumMessagesOut := 0, totalBytesIn := 0,
    totalBytesOut := 0, maxNumMessagesIn := 0, maxNumMessagesOut := 0,
    maxBytesInInOneSec := 0, maxBytesOutInOneSec := 0, numMessagesIn := 0,
    numMessagesOut := 0, bytesIn := 0, bytesOut := 0 }

/-- The build options: the macros `TOTAL_UPLOAD_CAP` and
`TCP_CLIENT_UPLOAD_CAP`, `none` when not defined. -/
structure Config where
  TOTAL_UPLOAD_CAP : Option Nat
  TCP_CLIENT_UPLOAD_CAP : Option Nat
  deriving DecidableEq, Repr

/-- The texts sent to a client. -/
inductive Notice
  | exceeded_upload_limit
  | banned_for_server_messages
  deriving DecidableEq, Repr

/-- Calls into the relay server library and console lines that tell the paths
of a handler apart. -/
inductive Effect
  | send (client : Nat) (subchannel : Nat) (text : Notice)
  | disconnect (client : Nat)
  | dropped_server_message (addr : String)
  | message_from_client (id : Nat)
  deriving DecidableEq, Repr

/-- What a call of `client::disconnect ()` does with the disconnect handler:
whether the handler runs before the call returns and, if it does, what it
reads (the trusted flag of the client, `time (NULL)`, the client and channel
counts). -/
structure DisconnectEnv where
  handler_runs : Bool
  istrusted : Bool
  now : Int
  clientCount : Nat
  channelCount : Nat
  deriving DecidableEq, Repr

/-- The function `UpdateTitle` without its console output. -/
def UpdateTitle (g : Globals) (clientCount channelCount : Nat) : Globals :=
  let g1 := if g.maxClients < clientCount then { g with maxClients := clientCount } else g
  if g1.maxChannels < channelCount then { g1 with maxChannels := channelCount } else g1

/-- The handler `OnConnectRequest`.  It returns the new globals and the deny
reason handed to `server.connect_response` (empty: the connection is
accepted).

* `lw_addr_prettystring` is the address formatter of the library, which is
  not part of the sources at hand;
* `now` is what `time (NULL)` returns in the expiry test, `now2` what it
  returns when the ban is extended;
* `clientCount` and `channelCount` are `server.clientcount ()` and
  `globalserver->channelcount ()`.

An iterator of `banIPList` is an index, `end ()` being the length.  The shift
`disconnects++ << 2` is computed in `int`, the product with 60 * 60 in
`long long`. -/
def OnConnectRequest (lw_addr_prettystring : String → String) (g : Globals)
    (cl : client) (now now2 : Int) (clientCount channelCount : Nat) : Globals × String :=
  let addr := lw_addr_prettystring cl.address
  let banEntry := g.banIPList.findIdx (fun b => b.ip == addr)
  let accept (g1 : Globals) : Globals × String :=
    let g2 := UpdateTitle g1 clientCount channelCount
    ({ g2 with clientdata := g2.clientdata ++ [clientstats.new cl] }, "")
  match g.banIPList[banEntry]? with
  | none => accept g
  | some b =>
    if b.resetAt < now then
      accept { g with banIPList := g.banIPList.eraseIdx banEntry }
    else if b.disconnects > 3 then
      let extended : BanEntry :=
        { b with resetAt := now2 + to_int (b.disconnects * 4) * 60 * 60,
                 disconnects := to_int (b.disconnects + 1) }
      ({ g with banIPList := g.banIPList.set banEntry extended }, b.reason)
    else
      accept g

/-- The ban bookkeeping written out three times in the source (`OnDisconnect`,
`OnTimerTick`, `OnServerMessage`): `find_if` an entry whose `ip` equals `addr`;
if there is none, `push_back (BanEntry (ip, 1, reason, resetAt))`, otherwise
increment the `disconnects` of the entry found. -/
def record_ban (banIPList : List BanEntry) (addr : String) (ip : String)
    (reason : String) (resetAt : Int) : List BanEntry :=
  let banEntry := banIPList.findIdx (fun b => b.ip == addr)
  match banIPList[banEntry]? with
  | none =>
    banIPList ++ [{ ip := ip, disconnects := 1, reason := reason, resetAt := resetAt }]
  | some b =>
    banIPList.set banEntry { b with disconnects := to_int (b.disconnects + 1) }

/-- The idiom `a = find_if (clientdata, cd->c == client); if (a != end)
clientdata.erase (a)`. -/
def erase_client (clientdata : List clientstats) (cl : client) : List clientstats :=
  let a := clientdata.findIdx (fun c => c.c.ptr == cl.ptr)
  match clientdata[a]? with
  | none => clientdata
  | some _ => clientdata.eraseIdx a

/-- The handler `OnDisconnect`.  `istrusted` is `client->istrusted ()`, `now`
is `time (NULL)`. -/
def OnDisconnect (lw_addr_prettystring : String → String) (g : Globals)
    (cl : client) (istrusted : Bool) (now : Int) (clientCount channelCount : Nat) :
    Globals :=
  let g1 := UpdateTitle g clientCount channelCount
  let addr := lw_addr_prettystring cl.address
  let g2 := { g1 with clientdata := erase_client g1.clientdata cl }
  if !istrusted then
    { g2 with banIPList :=
        record_ban g2.banIPList addr addr "Broken Lacewing protocol" (now + 30 * 60) }
  else g2

/-- Modelled from the spec: `client::disconnect ()` of the relay server
library, which is not part of the sources at hand.  "Invokes
`on_disconnect (client)` exactly once"; "rarely, `disconnect` may return before
`on_disconnect` fires".  Only the effect on the globals of the host is kept:
the handler `OnDisconnect` runs inside the call, or it does not. -/
def client_disconnect (lw_addr_prettystring : String → String) (g : Globals)
    (cl : client) (env : DisconnectEnv) : Globals :=
  if env.handler_runs then
    OnDisconnect lw_addr_prettystring g cl env.istrusted env.now env.clientCount
      env.channelCount
  else g

/-- The first part of `OnTimerTick`: the counters of the last second are added
to the totals, the maxima are raised and the counters are zeroed. -/
def roll_counters (g : Globals) : Globals :=
  { g with
    totalNumMessagesIn := to_size_t (g.totalNumMessagesIn + g.numMessagesIn),
    totalNumMessagesOut := to_size_t (g.totalNumMessagesOut + g.numMessagesOut),
    totalBytesIn := to_size_t (g.totalBytesIn + g.bytesIn),
    totalBytesOut := to_size_t (g.totalBytesOut + g.bytesOut),
    maxNumMessagesIn :=
      if g.maxNumMessagesIn < g.numMessagesIn then g.numMessagesIn else g.maxNumMessagesIn,
    maxNumMessagesOut :=
      if g.maxNumMessagesOut < g.numMessagesOut then g.numMessagesOut
      else g.maxNumMessagesOut,
    maxBytesInInOneSec :=
      if g.maxBytesInInOneSec < g.bytesIn then g.bytesIn else g.maxBytesInInOneSec,
    maxBytesOutInOneSec :=
      if g.maxBytesOutInOneSec < g.bytesOut then g.bytesOut else g.maxBytesOutInOneSec,
    numMessagesOut := 0, numMessagesIn := 0, bytesIn := 0, bytesOut := 0 }

/-- The body of the first loop of `OnTimerTick`: the window of a client that
has not exceeded the cap is reset. -/
def reset_window (c : clientstats) : clientstats :=
  if !c.exceeded then { c with bytesIn := 0, numMessagesIn := 0 } else c

/-- The handler `OnTimerTick`.  `now` is `time (NULL)`; `env` is what the call
of `disconnect ()` does.  The second loop skips the clients that have not
exceeded the cap and leaves at the end of its first full iteration, so it
handles the first client with `exceeded` set. -/
def OnTimerTick (lw_addr_prettystring : String → String) (cfg : Config) (g : Globals)
    (now : Int) (env : DisconnectEnv) : Globals × List Effect :=
  let g1 := roll_counters g
  match cfg.TCP_CLIENT_UPLOAD_CAP with
  | none => (g1, [])
  | some _ =>
    let g2 := { g1 with clientdata := g1.clientdata.map reset_window }
    match g2.clientdata.find? (fun c => c.exceeded) with
    | none => (g2, [])
    | some c =>
      let ipAddress := c.c.address
      let addr := lw_addr_prettystring ipAddress
      let banned := record_ban g2.banIPList addr ipAddress
        "You have been banned for heavy TCP usage. Contact Phi on Clickteam Discord."
        (now + 60)
      let g3 := { g2 with banIPList := banned }
      let g4 := client_disconnect lw_addr_prettystring g3 c.c env
      ({ g4 with clientdata := erase_client g4.clientdata c.c },
       [Effect.send c.c.ptr 1 Notice.exceeded_upload_limit,
        Effect.send c.c.ptr 0 Notice.exceeded_upload_limit,
        Effect.disconnect c.c.ptr])

/-- The handler `OnServerMessage`.  `data` are the bytes of the message, `now`
is `time (NULL)`, `env` is what the call of `disconnect ()` does. -/
def OnServerMessage (lw_addr_prettystring : String → String) (g : Globals)
    (senderclient : client) (blasted : Bool) (subchannel : Nat) (data : List Nat)
    (variant : Nat) (now : Int) (env : DisconnectEnv) : Globals × List Effect :=
  let g1 := { g with
    numMessagesIn := to_size_t (g.numMessagesIn + 1),
    bytesIn := to_size_t (g.bytesIn + data.length) }
  if blasted || variant != 0 || (subchannel != 0 && subchannel != 5) then
    let addr := lw_addr_prettystring senderclient.address
    let cd := g1.clientdata.findIdx (fun b => b.c.ptr == senderclient.ptr)
    match g1.clientdata[cd]? with
    | none => (g1, [Effect.dropped_server_message addr])
    | some r =>
      let counted : clientstats :=
        { r with
          totalBytesIn := to_size_t (r.totalBytesIn + data.length),
          totalNumMessagesIn := to_size_t (r.totalNumMessagesIn + 1),
          wastedServerMessages := to_size_t (r.wastedServerMessages + 1) }
      let g2 := { g1 with clientdata := g1.clientdata.set cd counted }
      if r.wastedServerMessages > 5 then
        let banned := record_ban g2.banIPList addr addr
          "Sending too many messages the server is not meant to handle."
          (now + 60 * 60)
        let g3 := { g2 with banIPList := banned }
        (client_disconnect lw_addr_prettystring g3 senderclient env,
         [Effect.dropped_server_message addr,
          Effect.send senderclient.ptr 1 Notice.banned_for_server_messages,
          Effect.disconnect senderclient.ptr])
      else (g2, [Effect.dropped_server_message addr])
  else (g1, [Effect.message_from_client senderclient.id])

/-- The function `IncrementClient`.  It returns the new globals and its
result. -/
def IncrementClient (cfg : Config) (g : Globals) (cl : client) (size : Nat)
    (blasted : Bool) : Globals × Bool :=
  let cd := g.clientdata.findIdx (fun b => b.c.ptr == cl.ptr)
  match g.clientdata[cd]? with
  | none => (g, true)
  | some r =>
    let counted : clientstats :=
      { r with
        totalBytesIn := to_size_t (r.totalBytesIn + size),
        totalNumMessagesIn := to_size_t (r.totalNumMessagesIn + 1) }
    match cfg.TCP_CLIENT_UPLOAD_CAP with
    | none => ({ g with clientdata := g.clientdata.set cd counted }, true)
    | some cap =>
      if !blasted then
        let bytesIn := to_size_t (counted.bytesIn + size)
        let exceeded := counted.exceeded || decide (bytesIn > cap)
        ({ g with clientdata :=
            g.clientdata.set cd { counted with bytesIn := bytesIn, exceeded := exceeded } },
         !exceeded)
      else ({ g with clientdata := g.clientdata.set cd counted }, true)

/-- The handler `OnPeerMessage`.  It returns the new globals and the `allowed`
flag handed to `server.clientmessage_permit`. -/
def OnPeerMessage (cfg : Config) (g : Globals) (senderclient : client)
    (blasted : Bool) (data : List Nat) : Globals × Bool :=
  let g1 := { g with
    numMessagesIn := to_size_t (g.numMessagesIn + 1),
    bytesIn := to_size_t (g.bytesIn + data.length) }
  if cfg.TOTAL_UPLOAD_CAP.isSome && (decide (g1.bytesOut > 50000) && blasted) then
    (g1, false)
  else
    match IncrementClient cfg g1 senderclient data.length blasted with
    | (g2, false) => (g2, false)
    | (g2, true) =>
      ({ g2 with
          numMessagesOut := to_size_t (g2.numMessagesOut + 1),
          bytesOut := to_size_t (g2.bytesOut + data.length) },
       true)

/-- The handler `OnChannelMessage`.  `channel_clientcount` is
`channel->clientcount ()`; `numCli` is `channel->clientcount () - 1U` in
`size_t`, which wraps around at 0.  It returns the new globals and the `allowed` flag
handed to `server.channelmessage_permit`. -/
def OnChannelMessage (cfg : Config) (g : Globals) (senderclient : client)
    (channel_clientcount : Nat) (blasted : Bool) (data : List Nat) : Globals × Bool :=
  let g1 := { g with
    numMessagesIn := to_size_t (g.numMessagesIn + 1),
    bytesIn := to_size_t (g.bytesIn + data.length) }
  let over_total : Bool :=
    match cfg.TOTAL_UPLOAD_CAP with
    | none => false
    | some cap => decide (g1.bytesOut > cap) && blasted
  if over_total then
    ({ g1 with
        numMessagesIn := to_size_t (g1.numMessagesIn + 1),
        bytesIn := to_size_t (g1.bytesIn + data.length) },
     false)
  else
    match IncrementClient cfg g1 senderclient data.length blasted with
    | (g2, false) => (g2, false)
    | (g2, true) =>
      let numCli :=
        if channel_clientcount = 0 then 18446744073709551615 else channel_clientcount - 1
      ({ g2 with
          numMessagesOut := to_size_t (g2.numMessagesOut + numCli),
          bytesOut := to_size_t (g2.bytesOut + to_size_t (numCli * data.length)) },
       true)

/-- The record `clientdata` holds for a client: the first one whose handle
points to the same object, as every `find_if` of the handlers finds it. -/
def stats_of (clientdata : List clientstats) (ptr : Nat) : Option clientstats :=
  clientdata.find? (fun b => b.c.ptr == ptr)

/-- One call of a handler by the relay server library. -/
inductive Call
  | connect_request (cl : client) (now now2 : Int) (clientCount channelCount : Nat)
  | disconnect (cl : client) (istrusted : Bool) (now : Int)
      (clientCount channelCount : Nat)
  | server_message (senderclient : client) (blasted : Bool) (subchannel : Nat)
      (data : List Nat) (variant : Nat) (now : Int) (env : DisconnectEnv)
  | peer_message (senderclient : client) (blasted : Bool) (data : List Nat)
  | channel_message (senderclient : client) (channel_clientcount : Nat) (blasted : Bool)
      (data : List Nat)
  | timer_tick (now : Int) (env : DisconnectEnv)
  deriving DecidableEq, Repr

/-- The globals after one call. -/
def step (lw_addr_prettystring : String → String) (cfg : Config) (g : Globals) :
    Call → Globals
  | Call.connect_request cl now now2 clientCount channelCount =>
    (OnConnectRequest lw_addr_prettystring g cl now now2 clientCount channelCount).1
  | Call.disconnect cl istrusted now clientCount channelCount =>
    OnDisconnect lw_addr_prettystring g cl istrusted now clientCount channelCount
  | Call.server_message senderclient blasted subchannel data variant now env =>
    (OnServerMessage lw_addr_prettystring g senderclient blasted subchannel data variant
      now env).1
  | Call.peer_message senderclient blasted data =>
    (OnPeerMessage cfg g senderclient blasted data).1
  | Call.channel_message senderclient channel_clientcount blasted data =>
    (OnChannelMessage cfg g senderclient channel_clientcount blasted data).1
  | Call.timer_tick now env => (OnTimerTick lw_addr_prettystring cfg g now env).1

/-- The globals after a sequence of calls. -/
def run (lw_addr_prettystring : String → String) (cfg : Config) (g : Globals)
    (calls : List Call) : Globals :=
  calls.foldl (step lw_addr_prettystring cfg) g

/-- A ban list with one entry for 10.0.0.7 that resets at second 1000. -/
def banned_once : Globals :=
  { Globals.start with
    banIPList := [{ ip := "10.0.0.7", disconnects := 4,
                    reason := "Broken Lacewing protocol", resetAt := 1000 }] }

/-- A client connecting from 10.0.0.7. -/
def visitor : client :=
  { ptr := 1, id := 1, address := "10.0.0.7" }

/-- A formatter in the manner of `lw_addr_prettystring`: it shortens the
IPv4-mapped text of 10.0.0.7 and leaves every other text as it is. -/
def shorten_mapped (s : String) : String :=
  if s = "[::ffff:10.0.0.7]" then "10.0.0.7" else s

/-- The build of the source at hand: neither cap is defined. -/
def uncapped : Config :=
  { TOTAL_UPLOAD_CAP := none, TCP_CLIENT_UPLOAD_CAP := none }

/-- The build with `TCP_CLIENT_UPLOAD_CAP` defined as 3000. -/
def capped : Config :=
  { TOTAL_UPLOAD_CAP := none, TCP_CLIENT_UPLOAD_CAP := some 3000 }

/-- A client whose address text is the IPv4-mapped form of 10.0.0.7. -/
def first_mapped : client :=
  { ptr := 1, id := 1, address := "[::ffff:10.0.0.7]" }

/-- A later client from the same address. -/
def second_mapped : client :=
  { ptr := 2, id := 2, address := "[::ffff:10.0.0.7]" }

/-- A call of `disconnect ()` inside which the handler runs for a trusted
client. -/
def handler_runs : DisconnectEnv :=
  { handler_runs := true, istrusted := true, now := 0, clientCount := 0, channelCount := 0 }

/-- A call of `disconnect ()` that returns before the handler has run. -/
def handler_skipped : DisconnectEnv :=
  { handler_runs := false, istrusted := true, now := 0, clientCount := 0, channelCount := 0 }

/-- A message of 4000 bytes. -/
def upload_4000 : List Nat :=
  List.replicate 4000 0

/-- The globals after `first_mapped` has connected and sent 4000 bytes in one
TCP peer message, with a cap of 3000. -/
def first_exceeded : Globals :=
  { Globals.start with
    clientdata :=
      [{ c := first_mapped, totalBytesIn := 4000, totalNumMessagesIn := 1,
         wastedServerMessages := 0, bytesIn := 4000, numMessagesIn := 0,
         exceeded := true }],
    maxClients := 1, numMessagesIn := 1, bytesIn := 4000 }

/-- The globals after the timer tick that follows `first_exceeded` at second 100
and the connection of `second_mapped` at second 200. -/
def second_connected : Globals :=
  { Globals.start with
    banIPList :=
      [{ ip := "[::ffff:10.0.0.7]", disconnects := 1,
         reason :=
           "You have been banned for heavy TCP usage. Contact Phi on Clickteam Discord.",
         resetAt := 160 }],
    clientdata := [clientstats.new second_mapped],
    maxClients := 1, totalNumMessagesIn := 1, totalBytesIn := 4000,
    maxNumMessagesIn := 1, maxBytesInInOneSec := 4000 }

/-- The globals after `visitor` has connected (no cap configured). -/
def visitor_connected : Globals :=
  run id uncapped Globals.start [Call.connect_request visitor 10 10 1 0]

end Relay

/-! ## Lemmas on the kernel queue -/

namespace Lacewing

theorem posted_nil (t : Nat) : posted t [] = 0 := rfl

theorem posted_append (t : Nat) (l₁ l₂ : List udp_overlapped) :
    posted t (l₁ ++ l₂) = posted t l₁ + posted t l₂ := by
  simp [posted]

theorem posted_singleton (t : Nat) (o : udp_overlapped) :
    posted t [o] = if o.type = t then 1 else 0 := by
  simp [posted, List.countP_singleton]

theorem posted_cons (t : Nat) (o : udp_overlapped) (l : List udp_overlapped) :
    posted t (o :: l) = posted t l + if o.type = t then 1 else 0 := by
  simp [posted, List.countP_cons]

/-- Taking a held request out of the queue lowers the count of its type by one
and leaves the other counts alone. -/
theorem posted_erase (t : Nat) (o : udp_overlapped) :
    ∀ l : List udp_overlapped, o ∈ l →
      posted t (l.erase o) + (if o.type = t then 1 else 0) = posted t l := by
  intro l
  induction l with
  | nil => intro h; cases h
  | cons a l ih =>
    intro h
    by_cases hao : a = o
    · subst hao
      simp [posted_cons]
    · have hmem : o ∈ l := by
        rcases List.mem_cons.mp h with h1 | h1
        · exact absurd h1.symm hao
        · exact h1
      have hne : (a == o) = false := by simpa using hao
      rw [List.erase_cons, hne]
      simp only [Bool.false_eq_true, if_false, posted_cons]
      have := ih hmem
      omega

/-- A queue holding only sends and receives, and none of either, is empty. -/
theorem kernel_empty_of_none_posted (l : List udp_overlapped)
    (types : ∀ o ∈ l, o.type = overlapped_type_send ∨ o.type = overlapped_type_receive)
    (hr : posted overlapped_type_receive l = 0) (hs : posted overlapped_type_send l = 0) :
    l = [] := by
  cases l with
  | nil => rfl
  | cons a l =>
    exfalso
    rw [posted_cons] at hr hs
    rcases types a (List.mem_cons_self a l) with h | h
    · rw [if_pos h] at hs; omega
    · rw [if_pos h] at hr; omega

theorem mem_of_mem_erase_kernel {o a : udp_overlapped} {l : List udp_overlapped}
    (h : o ∈ l.erase a) : o ∈ l :=
  List.mem_of_mem_erase h

end Lacewing

/-! ## The accounting invariant is kept by every operation -/

namespace Lacewing

theorem inv_fresh : Inv fresh := by
  refine ⟨?_, ?_, ?_, ?_, ?_, ?_, ?_, ?_⟩ <;>
    simp [fresh, owner_reference, posted, ideal_pending_receive_count]

theorem lw_udp_new_eq (w : World) (h : lw_udp_new true = some w) : w = fresh := by
  simp [lw_udp_new, fresh] at h ⊢
  exact h.symm

theorem inv_on_data (w : World) (hook : Bool) (h : Inv w) : Inv (lw_udp_on_data w hook) :=
  ⟨h.refs, h.recvs, h.sends, h.types, h.upper, h.no_assert, h.alive, h.drained⟩

theorem inv_on_error (w : World) (hook : Bool) (h : Inv w) : Inv (lw_udp_on_error w hook) :=
  ⟨h.refs, h.recvs, h.sends, h.types, h.upper, h.no_assert, h.alive, h.drained⟩

theorem inv_unhost (w : World) (h : Inv w) : Inv (lw_udp_unhost w) := by
  unfold lw_udp_unhost
  split
  · exact h
  · exact ⟨h.refs, h.recvs, h.sends, h.types, h.upper, h.no_assert, h.alive, h.drained⟩

theorem unhost_freed (w : World) : (lw_udp_unhost w).freed = w.freed := by
  unfold lw_udp_unhost
  split <;> rfl

theorem unhost_fault (w : World) : (lw_udp_unhost w).fault = w.fault := by
  unfold lw_udp_unhost
  split <;> rfl

/-- One iteration of the loop of `post_receives`, case by case. -/
theorem post_receives_loop_succ (fuel : Nat) (env : Nat → RecvAttempt) (i : Nat) (w : World) :
    post_receives_loop (fuel + 1) env i w =
      if w.ctx.receives_posted < ideal_pending_receive_count then
        if (env i).info_malloc = true then
          if (env i).overlapped_calloc = false then
            { w with next_alloc := w.next_alloc + 1 }
          else if genuine_error (env i).wsa_recv_from = true then
            (lwp_release (lwp_retain { w with next_alloc := w.next_alloc + 1 + 1 })).2
          else
            post_receives_loop fuel env (i + 1)
              { w with
                ctx := { w.ctx with
                  refcount := w.ctx.refcount + 1,
                  pending_receives := w.ctx.pending_receives ++ [w.next_alloc + 1],
                  receives_posted := w.ctx.receives_posted + 1 },
                kernel := w.kernel ++
                  [{ ptr := w.next_alloc + 1, type := overlapped_type_receive,
                     tag := some w.next_alloc }],
                next_alloc := w.next_alloc + 1 + 1 }
        else { w with fault := some Fault.null_dereference }
      else w := by
  rw [post_receives_loop]
  by_cases hlt : w.ctx.receives_posted < ideal_pending_receive_count
  · rw [if_pos hlt, if_pos hlt]
    cases hm : (env i).info_malloc
    · simp [udp_receive_info_new]
    · simp only [udp_receive_info_new, if_true]
      by_cases hc : (env i).overlapped_calloc = false
      · rw [if_pos hc, if_pos hc]
      · rw [if_neg hc, if_neg hc]
        by_cases hg : genuine_error (env i).wsa_recv_from = true
        · rw [if_pos hg, if_pos hg]
        · rw [if_neg hg, if_neg hg]
          rfl
  · rw [if_neg hlt, if_neg hlt]

/-- The loop of `post_receives` keeps the invariant of a context that has not
been freed. -/
theorem inv_post_receives_loop (env : Nat → RecvAttempt) :
    ∀ (fuel i : Nat) (w : World), Inv w → w.freed = false →
      Inv (post_receives_loop fuel env i w) := by
  intro fuel
  induction fuel with
  | zero => intro i w h _; exact h
  | succ n ih =>
    intro i w h hf
    have hpos := h.alive hf
    rw [post_receives_loop_succ]
    by_cases hlt : w.ctx.receives_posted < ideal_pending_receive_count
    · rw [if_pos hlt]
      by_cases hm : (env i).info_malloc = true
      · rw [if_pos hm]
        by_cases hc : (env i).overlapped_calloc = false
        · rw [if_pos hc]
          exact ⟨h.refs, h.recvs, h.sends, h.types, h.upper, h.no_assert, h.alive, h.drained⟩
        · rw [if_neg hc]
          by_cases hg : genuine_error (env i).wsa_recv_from = true
          · rw [if_pos hg]
            have hne : ¬ (w.ctx.refcount + 1 - 1 = 0) := by omega
            simp only [lwp_release, lwp_retain, hne, if_false]
            refine ⟨?_, h.recvs, h.sends, h.types, h.upper, h.no_assert, ?_, h.drained⟩
            · have := h.refs
              simp only [owner_reference] at this ⊢
              simp only [this]
              omega
            · intro _
              show 0 < w.ctx.refcount + 1 - 1
              omega
          · rw [if_neg hg]
            apply ih
            · refine ⟨?_, ?_, ?_, ?_, ?_, h.no_assert, ?_, ?_⟩
              · have := h.refs
                simp only [owner_reference] at this ⊢
                simp only [this]
                omega
              · have := h.recvs
                simp only [posted_append, posted_singleton, if_true]
                push_cast
                omega
              · have := h.sends
                simp only [posted_append, posted_singleton,
                  overlapped_type_receive, overlapped_type_send]
                simpa using this
              · intro o ho
                simp only [List.mem_append, List.mem_singleton] at ho
                rcases ho with ho | ho
                · exact h.types o ho
                · right; rw [ho]
              · show w.ctx.receives_posted + 1 ≤ ideal_pending_receive_count
                omega
              · intro _
                show 0 < w.ctx.refcount + 1
                omega
              · intro hfr
                have hfr2 : w.freed = true := hfr
                rw [hf] at hfr2
                cases hfr2
            · exact hf
      · rw [if_neg hm]
        exact ⟨h.refs, h.recvs, h.sends, h.types, h.upper, by simp, h.alive, h.drained⟩
    · rw [if_neg hlt]
      exact h

theorem inv_post_receives (w : World) (env : Nat → RecvAttempt) (h : Inv w)
    (hf : w.freed = false) : Inv (post_receives w env) :=
  inv_post_receives_loop env _ 0 w h hf

end Lacewing

namespace Lacewing

theorem posted_receive_nonneg (w : World) (h : Inv w) : 0 ≤ w.ctx.receives_posted := by
  have := h.recvs
  omega

theorem writes_posted_nonneg (w : World) (h : Inv w) : 0 ≤ w.ctx.writes_posted := by
  have := h.sends
  omega

/-- The release that drops the last reference of a context with no posted
receives or writes frees it. -/
theorem lwp_release_last (w : World) (hz : w.ctx.refcount - 1 = 0)
    (hr0 : w.ctx.receives_posted = 0) (hs0 : w.ctx.writes_posted = 0) :
    lwp_release w =
      (true, { w with
        ctx := { w.ctx with refcount := w.ctx.refcount - 1, pending_receives := [] },
        freed := true }) := by
  unfold lwp_release
  simp only
  rw [if_pos hz]
  unfold lw_udp_dealloc
  rw [if_pos (show _ ∧ _ from ⟨hr0, hs0⟩)]

/-- The release that leaves references behind only lowers the count. -/
theorem lwp_release_more (w : World) (hz : ¬ (w.ctx.refcount - 1 = 0)) :
    lwp_release w =
      (false, { w with ctx := { w.ctx with refcount := w.ctx.refcount - 1 } }) := by
  unfold lwp_release
  simp only
  rw [if_neg hz]

/-- Releasing a reference that is held on top of the accounted ones keeps the
invariant, and the release reports the context freed exactly when it frees. -/
theorem inv_release (w : World)
    (refs : w.ctx.refcount =
      owner_reference w + w.ctx.receives_posted + w.ctx.writes_posted + 1)
    (recvs : (posted overlapped_type_receive w.kernel : Int) = w.ctx.receives_posted)
    (sends : (posted overlapped_type_send w.kernel : Int) ≤ w.ctx.writes_posted)
    (types : ∀ o ∈ w.kernel, o.type = overlapped_type_send ∨ o.type = overlapped_type_receive)
    (upper : w.ctx.receives_posted ≤ ideal_pending_receive_count)
    (no_assert : w.fault ≠ some Fault.assert_dealloc)
    (hf : w.freed = false) :
    Inv (lwp_release w).2 ∧ ((lwp_release w).1 = false → (lwp_release w).2.freed = false) := by
  have hown : 0 ≤ owner_reference w := by
    unfold owner_reference; split <;> omega
  have hr : 0 ≤ w.ctx.receives_posted := by omega
  have hs : 0 ≤ w.ctx.writes_posted := by omega
  by_cases hz : w.ctx.refcount - 1 = 0
  · have hr0 : w.ctx.receives_posted = 0 := by omega
    have hs0 : w.ctx.writes_posted = 0 := by omega
    have ho0 : owner_reference w = 0 := by omega
    have hk : w.kernel = [] := by
      apply kernel_empty_of_none_posted w.kernel types
      · omega
      · omega
    rw [lwp_release_last w hz hr0 hs0]
    refine ⟨⟨?_, recvs, sends, types, upper, no_assert, ?_, ?_⟩, ?_⟩
    · show w.ctx.refcount - 1 = owner_reference w + w.ctx.receives_posted + w.ctx.writes_posted
      omega
    · intro hfr
      cases hfr
    · intro _
      exact hk
    · intro hfalse
      cases hfalse
  · rw [lwp_release_more w hz]
    refine ⟨⟨?_, recvs, sends, types, upper, no_assert, ?_, ?_⟩, ?_⟩
    · show w.ctx.refcount - 1 = owner_reference w + w.ctx.receives_posted + w.ctx.writes_posted
      omega
    · intro _
      show 0 < w.ctx.refcount - 1
      omega
    · intro hfr
      have hfr2 : w.freed = true := hfr
      rw [hf] at hfr2
      cases hfr2
    · intro _
      exact hf

theorem inv_host_filter (w : World) (filter : lw_filter)
    (create : Except (List ErrorItem) (Nat × Int)) (env : Nat → RecvAttempt)
    (h : Inv w) (hf : w.freed = false) :
    Inv (lw_udp_host_filter w filter create env) := by
  have h1 : Inv (if w.ctx.socket ≠ none then lw_udp_unhost w else w) := by
    by_cases hs : w.ctx.socket ≠ none
    · rw [if_pos hs]; exact inv_unhost w h
    · rw [if_neg hs]; exact h
  have hf1 : (if w.ctx.socket ≠ none then lw_udp_unhost w else w).freed = false := by
    by_cases hs : w.ctx.socket ≠ none
    · rw [if_pos hs, unhost_freed]; exact hf
    · rw [if_neg hs]; exact hf
  unfold lw_udp_host_filter
  generalize (if w.ctx.socket ≠ none then lw_udp_unhost w else w) = w1 at h1 hf1
  cases create with
  | error e =>
    simp only
    split_ifs
    · exact ⟨h1.refs, h1.recvs, h1.sends, h1.types, h1.upper, h1.no_assert, h1.alive, h1.drained⟩
    · exact ⟨h1.refs, h1.recvs, h1.sends, h1.types, h1.upper, h1.no_assert, h1.alive, h1.drained⟩
  | ok sp =>
    obtain ⟨socket, port⟩ := sp
    simp only
    apply inv_post_receives
    · exact ⟨h1.refs, h1.recvs, h1.sends, h1.types, h1.upper, h1.no_assert, h1.alive, h1.drained⟩
    · exact hf1

theorem inv_send (w : World) (addr : Option lw_addr) (buffer : List Nat) (size : Nat)
    (calloc_ok : Bool) (wsa_send_to : Option Int) (h : Inv w) (hf : w.freed = false) :
    Inv (lw_udp_send w addr buffer size calloc_ok wsa_send_to) := by
  have hpos := h.alive hf
  have keep : ∀ (t : List Event) (n : Nat) (f : Option Fault), f ≠ some Fault.assert_dealloc →
      Inv { w with trace := t, next_alloc := n, fault := f } := fun t n f hne =>
    ⟨h.refs, h.recvs, h.sends, h.types, h.upper, hne, h.alive, h.drained⟩
  have sent : ∀ (t : List Event) (k : List udp_overlapped),
      (posted overlapped_type_receive k : Int) = w.ctx.receives_posted →
      (posted overlapped_type_send k : Int) ≤ w.ctx.writes_posted + 1 →
      (∀ o ∈ k, o.type = overlapped_type_send ∨ o.type = overlapped_type_receive) →
      Inv { w with
        ctx := { w.ctx with refcount := w.ctx.refcount + 1,
                            writes_posted := w.ctx.writes_posted + 1 },
        kernel := k, next_alloc := w.next_alloc + 1, trace := t } := by
    intro t k hk1 hk2 hk3
    refine ⟨?_, hk1, hk2, hk3, h.upper, h.no_assert, ?_, ?_⟩
    · have := h.refs
      simp only [owner_reference] at this ⊢
      simp only [this]
      omega
    · intro _
      show 0 < w.ctx.refcount + 1
      omega
    · intro hfr
      have hfr2 : w.freed = true := hfr
      rw [hf] at hfr2
      cases hfr2
  have hks : ∀ o : udp_overlapped, o.type = overlapped_type_send →
      (posted overlapped_type_receive (w.kernel ++ [o]) : Int) = w.ctx.receives_posted ∧
      (posted overlapped_type_send (w.kernel ++ [o]) : Int) ≤ w.ctx.writes_posted + 1 ∧
      (∀ x ∈ w.kernel ++ [o],
        x.type = overlapped_type_send ∨ x.type = overlapped_type_receive) := by
    intro o ho
    refine ⟨?_, ?_, ?_⟩
    · have := h.recvs
      simp only [posted_append, posted_singleton, ho, overlapped_type_send,
        overlapped_type_receive]
      simpa using this
    · have := h.sends
      simp only [posted_append, posted_singleton, ho, if_true]
      push_cast
      omega
    · intro x hx
      simp only [List.mem_append, List.mem_singleton] at hx
      rcases hx with hx | hx
      · exact h.types x hx
      · left; rw [hx]; exact ho
  have hsend := hks { ptr := w.next_alloc, type := overlapped_type_send, tag := none } rfl
  have hle : (posted overlapped_type_send w.kernel : Int) ≤ w.ctx.writes_posted + 1 := by
    have := h.sends
    omega
  unfold lw_udp_send
  cases addr <;> simp only <;> (repeat' split) <;>
    first
    | exact h
    | exact keep _ _ _ h.no_assert
    | exact keep _ _ _ (by simp)
    | exact sent _ _ hsend.1 hsend.2.1 hsend.2.2
    | exact sent _ _ h.recvs hle h.types

theorem inv_delete (w : World) (h : Inv w) (hf : w.freed = false) (owned : w.owner = true) :
    Inv (lw_udp_delete w) := by
  have key := inv_release { w with owner := false }
    (by
      have := h.refs
      simp only [owner_reference, owned, if_true] at this
      show w.ctx.refcount = (if false = true then (1 : Int) else 0) +
        w.ctx.receives_posted + w.ctx.writes_posted + 1
      rw [this]
      simp only [Bool.false_eq_true, if_false]
      omega)
    h.recvs h.sends h.types h.upper h.no_assert hf
  unfold lw_udp_delete
  rcases hrel : lwp_release { w with owner := false } with ⟨b, w1⟩
  rw [hrel] at key
  cases b with
  | true => exact key.1
  | false =>
    simp only
    split_ifs
    · exact inv_unhost w1 key.1
    · exact key.1

/-- A completion keeps the invariant. -/
theorem inv_complete (w : World) (overlapped : udp_overlapped)
    (bytes_transferred : Nat) (error : Int) (sender : Endpoint) (buffer : List Nat)
    (env : Nat → RecvAttempt) (h : Inv w) (held : overlapped ∈ w.kernel) :
    Inv (complete w overlapped bytes_transferred error sender buffer env) := by
  have hf : w.freed = false := by
    cases hfr : w.freed
    · rfl
    · have := h.drained hfr
      rw [this] at held
      cases held
  have hr := posted_erase overlapped_type_receive overlapped w.kernel held
  have hs := posted_erase overlapped_type_send overlapped w.kernel held
  have hrecvs := h.recvs
  have hsends := h.sends
  have hrefs := h.refs
  have htypes : ∀ o ∈ w.kernel.erase overlapped,
      o.type = overlapped_type_send ∨ o.type = overlapped_type_receive :=
    fun o ho => h.types o (mem_of_mem_erase_kernel ho)
  unfold complete udp_socket_completion
  by_cases hsend : overlapped.type = overlapped_type_send
  · rw [if_pos hsend]
    have hnr : ¬ (overlapped.type = overlapped_type_receive) := by
      rw [hsend]; decide
    rw [if_pos hsend] at hs
    rw [if_neg hnr] at hr
    unfold write_completed
    refine (inv_release _ ?_ ?_ ?_ ?_ ?_ ?_ ?_).1
    · show w.ctx.refcount = owner_reference w + w.ctx.receives_posted +
        (w.ctx.writes_posted - 1) + 1
      omega
    · show (posted overlapped_type_receive (w.kernel.erase overlapped) : Int) =
        w.ctx.receives_posted
      omega
    · show (posted overlapped_type_send (w.kernel.erase overlapped) : Int) ≤
        w.ctx.writes_posted - 1
      omega
    · exact htypes
    · exact h.upper
    · exact h.no_assert
    · exact hf
  · rw [if_neg hsend]
    have hrecv : overlapped.type = overlapped_type_receive := by
      rcases h.types overlapped held with h1 | h1
      · exact absurd h1 hsend
      · exact h1
    rw [if_pos hrecv]
    rw [if_pos hrecv] at hr
    rw [if_neg hsend] at hs
    have hdl : ∀ x : World, (deliver x sender buffer bytes_transferred).ctx = x.ctx ∧
        (deliver x sender buffer bytes_transferred).freed = x.freed ∧
        (deliver x sender buffer bytes_transferred).owner = x.owner ∧
        (deliver x sender buffer bytes_transferred).kernel = x.kernel ∧
        (deliver x sender buffer bytes_transferred).fault = x.fault := by
      intro x
      unfold deliver
      simp only
      split <;> simp
    obtain ⟨d1, d2, d3, d4, d5⟩ := hdl { w with kernel := w.kernel.erase overlapped }
    simp only
    unfold read_completed
    have key := inv_release
      { deliver { w with kernel := w.kernel.erase overlapped } sender buffer bytes_transferred with
        ctx := { (deliver { w with kernel := w.kernel.erase overlapped } sender buffer
                    bytes_transferred).ctx with
                 pending_receives :=
                   (deliver { w with kernel := w.kernel.erase overlapped } sender buffer
                      bytes_transferred).ctx.pending_receives.erase overlapped.ptr,
                 receives_posted :=
                   (deliver { w with kernel := w.kernel.erase overlapped } sender buffer
                      bytes_transferred).ctx.receives_posted - 1 } }
      (by
        simp only [owner_reference, d1, d3]
        simp only [owner_reference] at hrefs
        omega)
      (by
        simp only [d1, d4]
        omega)
      (by
        simp only [d1, d4]
        omega)
      (by
        simp only [d4]
        exact htypes)
      (by
        simp only [d1]
        have := h.upper
        omega)
      (by
        simp only [d5]
        exact h.no_assert)
      (by
        simp only [d2]
        exact hf)
    revert key
    generalize lwp_release _ = r
    obtain ⟨b, w3⟩ := r
    intro key
    cases b with
    | true => exact key.1
    | false => exact inv_post_receives w3 env key.1 (key.2 rfl)

/-- Every reachable state satisfies the accounting invariant. -/
theorem reachable_inv (w : World) (h : Reachable w) : Inv w := by
  induction h with
  | new h => rw [lw_udp_new_eq _ h]; exact inv_fresh
  | on_data _ _ hook ih => exact inv_on_data _ hook ih
  | on_error _ _ hook ih => exact inv_on_error _ hook ih
  | host_filter _ live filter create env ih => exact inv_host_filter _ filter create env ih live.1
  | unhost _ _ ih => exact inv_unhost _ ih
  | send _ live addr buffer size calloc_ok wsa ih =>
    exact inv_send _ addr buffer size calloc_ok wsa ih live.1
  | delete _ live owned ih => exact inv_delete _ ih live.1 owned
  | completion _ _ ov held bytes error sender buffer env ih =>
    exact inv_complete _ ov bytes error sender buffer env ih held

end Lacewing

/-! ## Reference counting and the receive ring (C1, C2) -/

namespace Lacewing

theorem reachable_fresh : Reachable fresh :=
  Reachable.new rfl

theorem reachable_hosting : Reachable hosting := by
  unfold hosting lw_udp_host
  exact Reachable.host_filter
    (Reachable.on_error (Reachable.on_data reachable_fresh ⟨rfl, rfl⟩ true) ⟨rfl, rfl⟩ true)
    ⟨rfl, rfl⟩ _ _ _

/-- C1: in every state reachable from `lw_udp_new` by hook setting,
`lw_udp_host_filter`, `lw_udp_unhost`, `lw_udp_send`, `lw_udp_delete` and
completions of posted requests, the assertion of `lw_udp_dealloc` has not
failed, the reference count equals the owner reference (1 until
`lw_udp_delete`, then 0) plus `receives_posted` plus `writes_posted`, and when
the reference count is zero both counters are zero.  Once the context is freed
the kernel holds no request of it, so no completion arrives for freed memory. -/
theorem C1_refcount_accounts_for_posted_io (w : World) (h : Reachable w) :
    w.fault ≠ some Fault.assert_dealloc ∧
    w.ctx.refcount = owner_reference w + w.ctx.receives_posted + w.ctx.writes_posted ∧
    (w.ctx.refcount = 0 → w.ctx.receives_posted = 0 ∧ w.ctx.writes_posted = 0) ∧
    (w.freed = true → w.kernel = []) := by
  have hi := reachable_inv w h
  have hr := posted_receive_nonneg w hi
  have hs := writes_posted_nonneg w hi
  have hrefs := hi.refs
  have hown : 0 ≤ owner_reference w := by
    unfold owner_reference; split <;> omega
  refine ⟨hi.no_assert, hrefs, ?_, hi.drained⟩
  intro hz
  constructor <;> omega

/-- C1 at the hosting context after `lw_udp_delete`: the owner reference is
gone and the 16 posted receives are the 16 references left. -/
theorem C1_refcount_accounts_for_posted_io_witness :
    deleted_while_hosting.ctx.refcount = 16 ∧ owner_reference deleted_while_hosting = 0 ∧
    (deleted_while_hosting.fault ≠ some Fault.assert_dealloc ∧
     deleted_while_hosting.ctx.refcount =
       owner_reference deleted_while_hosting + deleted_while_hosting.ctx.receives_posted +
         deleted_while_hosting.ctx.writes_posted ∧
     (deleted_while_hosting.ctx.refcount = 0 →
       deleted_while_hosting.ctx.receives_posted = 0 ∧
         deleted_while_hosting.ctx.writes_posted = 0) ∧
     (deleted_while_hosting.freed = true → deleted_while_hosting.kernel = [])) :=
  ⟨by decide, by decide,
   C1_refcount_accounts_for_posted_io deleted_while_hosting
     (Reachable.delete reachable_hosting ⟨rfl, rfl⟩ rfl)⟩

/-- C2: `receives_posted` is between 0 and 16 in every reachable state,
whatever the context was doing when it is hosted again and whichever receive
posts fail. -/
theorem C2_receives_posted_bounds (w : World) (h : Reachable w) :
    0 ≤ w.ctx.receives_posted ∧ w.ctx.receives_posted ≤ 16 := by
  have hi := reachable_inv w h
  exact ⟨posted_receive_nonneg w hi, hi.upper⟩

/-- C2 at a context hosted again while its 16 receives are still posted and
every new post fails. -/
theorem C2_receives_posted_bounds_witness :
    rehosted.ctx.receives_posted = 16 ∧
    (0 ≤ rehosted.ctx.receives_posted ∧ rehosted.ctx.receives_posted ≤ 16) :=
  ⟨by decide,
   C2_receives_posted_bounds rehosted
     (by
       unfold rehosted lw_udp_host
       exact Reachable.host_filter reachable_hosting ⟨rfl, rfl⟩ _ _ _)⟩

end Lacewing

/-! ## Delivery of received datagrams (C3) -/

namespace Lacewing

theorem lwp_release_trace (w : World) : (lwp_release w).2.trace = w.trace := by
  unfold lwp_release lw_udp_dealloc
  simp only
  split_ifs <;> rfl

theorem post_receives_loop_trace (env : Nat → RecvAttempt) :
    ∀ (fuel i : Nat) (w : World), (post_receives_loop fuel env i w).trace = w.trace := by
  intro fuel
  induction fuel with
  | zero => intro i w; rfl
  | succ n ih =>
    intro i w
    rw [post_receives_loop_succ]
    split_ifs
    · rfl
    · rw [lwp_release_trace]; rfl
    · rw [ih]
    · rfl
    · rfl

/-- No hook is invoked by `post_receives`. -/
theorem post_receives_trace (w : World) (env : Nat → RecvAttempt) :
    (post_receives w env).trace = w.trace :=
  post_receives_loop_trace env _ 0 w

/-- C3: a receive completion handled by `udp_socket_completion` invokes
`on_data` exactly once, with the sender address and the received bytes, when
the hook is set and the filter has no remote address or the sender equals it;
otherwise it invokes no hook at all, so nothing is delivered and `on_error` is
not invoked. -/
theorem C3_on_data_iff_sender_admitted (w : World) (overlapped : udp_overlapped)
    (bytes_transferred : Nat) (error : Int) (sender : Endpoint) (buffer : List Nat)
    (env : Nat → RecvAttempt) (hrecv : overlapped.type = overlapped_type_receive) :
    (udp_socket_completion w overlapped bytes_transferred error sender buffer env).trace =
      w.trace ++
        (if w.ctx.on_data = true ∧
            (lw_filter_remote w.ctx.filter = none ∨
             lw_filter_remote w.ctx.filter = some sender) then
          [Event.on_data sender (buffer.take bytes_transferred) bytes_transferred]
        else []) := by
  have hns : ¬ (overlapped.type = overlapped_type_send) := by
    rw [hrecv]; decide
  have hd : (deliver w sender buffer bytes_transferred).trace =
      w.trace ++
        (if w.ctx.on_data = true ∧
            (lw_filter_remote w.ctx.filter = none ∨
             lw_filter_remote w.ctx.filter = some sender) then
          [Event.on_data sender (buffer.take bytes_transferred) bytes_transferred]
        else []) := by
    unfold deliver lw_addr_equal
    cases hfa : lw_filter_remote w.ctx.filter with
    | none => cases hod : w.ctx.on_data <;> simp
    | some a =>
      cases hod : w.ctx.on_data
      · simp
      · by_cases hsa : sender = a
        · subst hsa; simp
        · have hsa2 : ¬ (a = sender) := fun h => hsa h.symm
          simp [hsa, hsa2]
  unfold udp_socket_completion
  rw [if_neg hns, if_pos hrecv]
  simp only
  unfold read_completed
  rw [← hd]
  generalize hr : lwp_release _ = r
  have ht := lwp_release_trace
    { deliver w sender buffer bytes_transferred with
      ctx := { (deliver w sender buffer bytes_transferred).ctx with
        pending_receives :=
          (deliver w sender buffer bytes_transferred).ctx.pending_receives.erase overlapped.ptr,
        receives_posted := (deliver w sender buffer bytes_transferred).ctx.receives_posted - 1 } }
  rw [hr] at ht
  obtain ⟨b, w3⟩ := r
  cases b with
  | true => exact ht
  | false =>
    show (post_receives w3 env).trace = _
    rw [post_receives_trace]
    exact ht

/-- C3 on a context whose filter admits only endpoint 7: a datagram from
endpoint 9 reaches no hook, a datagram from endpoint 7 is handed to `on_data`
once. -/
theorem C3_on_data_iff_sender_admitted_witness :
    (udp_socket_completion filtered
        { ptr := 1, type := overlapped_type_receive, tag := some 0 } 3 0 9 [104, 105, 33]
        always_pending).trace = filtered.trace ∧
    (udp_socket_completion filtered
        { ptr := 1, type := overlapped_type_receive, tag := some 0 } 3 0 7 [104, 105, 33]
        always_pending).trace = filtered.trace ++ [Event.on_data 7 [104, 105, 33] 3] :=
  ⟨(C3_on_data_iff_sender_admitted filtered _ 3 0 9 [104, 105, 33] always_pending rfl).trans
      (by decide),
   (C3_on_data_iff_sender_admitted filtered _ 3 0 7 [104, 105, 33] always_pending rfl).trans
      (by decide)⟩

end Lacewing

/-! ## Bookkeeping of a receive completion (C4) -/

namespace Lacewing

/-- The bound on the iterations of the loop of `post_receives` is enough: any
larger bound gives the same result. -/
theorem post_receives_loop_fuel (env : Nat → RecvAttempt) :
    ∀ (fuel i : Nat) (w : World),
      (ideal_pending_receive_count - w.ctx.receives_posted).toNat ≤ fuel →
      post_receives_loop fuel env i w =
        post_receives_loop (ideal_pending_receive_count - w.ctx.receives_posted).toNat env i w := by
  intro fuel
  induction fuel with
  | zero =>
    intro i w hle
    have : (ideal_pending_receive_count - w.ctx.receives_posted).toNat = 0 := by omega
    rw [this]
  | succ n ih =>
    intro i w hle
    by_cases hlt : w.ctx.receives_posted < ideal_pending_receive_count
    · obtain ⟨k, hk⟩ : ∃ k, (ideal_pending_receive_count - w.ctx.receives_posted).toNat = k + 1 :=
        ⟨(ideal_pending_receive_count - w.ctx.receives_posted).toNat - 1, by omega⟩
      rw [hk, post_receives_loop_succ, post_receives_loop_succ]
      rw [if_pos hlt, if_pos hlt]
      split_ifs
      · rfl
      · rfl
      · have hk2 : (ideal_pending_receive_count - (w.ctx.receives_posted + 1)).toNat = k := by
          omega
        rw [ih _ _ (by show (ideal_pending_receive_count - (w.ctx.receives_posted + 1)).toNat ≤ n
                       omega)]
        show post_receives_loop
            (ideal_pending_receive_count - (w.ctx.receives_posted + 1)).toNat env (i + 1) _ = _
        rw [hk2]
      · rfl
    · have : (ideal_pending_receive_count - w.ctx.receives_posted).toNat = 0 := by omega
      rw [this, post_receives_loop_succ, if_neg hlt]
      rfl

/-- When every attempt succeeds the loop of `post_receives` fills the ring: it
ends with 16 receives posted, having posted the missing ones and nothing else,
without freeing the context or stopping the process. -/
theorem post_receives_loop_all_succeed (env : Nat → RecvAttempt) (hs : all_succeed env) :
    ∀ (fuel i : Nat) (w : World),
      w.ctx.receives_posted ≤ ideal_pending_receive_count →
      (ideal_pending_receive_count - w.ctx.receives_posted).toNat ≤ fuel →
      (post_receives_loop fuel env i w).ctx.receives_posted = ideal_pending_receive_count ∧
      (post_receives_loop fuel env i w).kernel.length =
        w.kernel.length + (ideal_pending_receive_count - w.ctx.receives_posted).toNat ∧
      (post_receives_loop fuel env i w).fault = w.fault ∧
      (post_receives_loop fuel env i w).freed = w.freed := by
  intro fuel
  induction fuel with
  | zero =>
    intro i w hle hfuel
    have h0 : (ideal_pending_receive_count - w.ctx.receives_posted).toNat = 0 := by omega
    refine ⟨?_, ?_, rfl, rfl⟩
    · show w.ctx.receives_posted = ideal_pending_receive_count
      omega
    · show w.kernel.length = _
      omega
  | succ n ih =>
    intro i w hle hfuel
    obtain ⟨h1, h2, h3⟩ := hs i
    rw [post_receives_loop_succ]
    by_cases hlt : w.ctx.receives_posted < ideal_pending_receive_count
    · have hc : ¬ ((env i).overlapped_calloc = false) := by simp [h2]
      have hg : ¬ (genuine_error (env i).wsa_recv_from = true) := by simp [h3]
      rw [if_pos hlt, if_pos h1, if_neg hc, if_neg hg]
      obtain ⟨a1, a2, a3, a4⟩ := ih (i + 1)
        { w with
          ctx := { w.ctx with
            refcount := w.ctx.refcount + 1,
            pending_receives := w.ctx.pending_receives ++ [w.next_alloc + 1],
            receives_posted := w.ctx.receives_posted + 1 },
          kernel := w.kernel ++
            [{ ptr := w.next_alloc + 1, type := overlapped_type_receive,
               tag := some w.next_alloc }],
          next_alloc := w.next_alloc + 1 + 1 }
        (by show w.ctx.receives_posted + 1 ≤ ideal_pending_receive_count
            omega)
        (by show (ideal_pending_receive_count - (w.ctx.receives_posted + 1)).toNat ≤ n
            omega)
      refine ⟨a1, ?_, a3, a4⟩
      rw [a2]
      show (w.kernel ++ [_]).length +
        (ideal_pending_receive_count - (w.ctx.receives_posted + 1)).toNat = _
      rw [List.length_append, List.length_singleton]
      omega
    · rw [if_neg hlt]
      have h0 : (ideal_pending_receive_count - w.ctx.receives_posted).toNat = 0 := by omega
      refine ⟨?_, ?_, rfl, rfl⟩
      · omega
      · omega

/-- C4: a receive completion on a context with at most 16 receives posted
removes the completed slot from `pending_receives`, lowers `receives_posted` by
one and releases one reference.  If that release frees the context (the count
reaches zero) the deallocator runs and no receive is posted; otherwise
`post_receives` runs on the context, and when every post attempt succeeds
`receives_posted` is 16 afterwards, the missing receives and no others having
been posted: exactly one when 16 were posted before. -/
theorem C4_receive_completion_reposts (w : World) (overlapped : udp_overlapped)
    (bytes_transferred : Nat) (error : Int) (sender : Endpoint) (buffer : List Nat)
    (env : Nat → RecvAttempt) (hrecv : overlapped.type = overlapped_type_receive)
    (hn : w.ctx.receives_posted ≤ 16) :
    (udp_socket_completion w overlapped bytes_transferred error sender buffer env =
      if w.ctx.refcount - 1 = 0 then
        lw_udp_dealloc
          { deliver w sender buffer bytes_transferred with
            ctx := { w.ctx with
              pending_receives := w.ctx.pending_receives.erase overlapped.ptr,
              receives_posted := w.ctx.receives_posted - 1,
              refcount := w.ctx.refcount - 1 } }
      else
        post_receives
          { deliver w sender buffer bytes_transferred with
            ctx := { w.ctx with
              pending_receives := w.ctx.pending_receives.erase overlapped.ptr,
              receives_posted := w.ctx.receives_posted - 1,
              refcount := w.ctx.refcount - 1 } }
          env) ∧
    (w.ctx.refcount - 1 = 0 →
      (udp_socket_completion w overlapped bytes_transferred error sender buffer env).kernel =
        w.kernel ∧
      (udp_socket_completion w overlapped bytes_transferred error sender buffer
        env).ctx.receives_posted = w.ctx.receives_posted - 1 ∧
      (udp_socket_completion w overlapped bytes_transferred error sender buffer
        env).ctx.refcount = 0) ∧
    (w.ctx.refcount - 1 ≠ 0 → all_succeed env →
      (udp_socket_completion w overlapped bytes_transferred error sender buffer
        env).ctx.receives_posted = 16 ∧
      (udp_socket_completion w overlapped bytes_transferred error sender buffer
        env).kernel.length = w.kernel.length + (16 - (w.ctx.receives_posted - 1)).toNat ∧
      (w.ctx.receives_posted = 16 →
        (udp_socket_completion w overlapped bytes_transferred error sender buffer
          env).kernel =
          w.kernel ++ [{ ptr := w.next_alloc + 1, type := overlapped_type_receive,
                         tag := some w.next_alloc }] ∧
        (udp_socket_completion w overlapped bytes_transferred error sender buffer
          env).ctx.pending_receives =
          w.ctx.pending_receives.erase overlapped.ptr ++ [w.next_alloc + 1] ∧
        (udp_socket_completion w overlapped bytes_transferred error sender buffer
          env).ctx.refcount = w.ctx.refcount)) := by
  have hns : ¬ (overlapped.type = overlapped_type_send) := by
    rw [hrecv]; decide
  have hdl : (deliver w sender buffer bytes_transferred).ctx = w.ctx ∧
      (deliver w sender buffer bytes_transferred).kernel = w.kernel ∧
      (deliver w sender buffer bytes_transferred).next_alloc = w.next_alloc := by
    unfold deliver
    simp only
    split <;> simp
  obtain ⟨d1, d2, d3⟩ := hdl
  have main : udp_socket_completion w overlapped bytes_transferred error sender buffer env =
      if w.ctx.refcount - 1 = 0 then
        lw_udp_dealloc
          { deliver w sender buffer bytes_transferred with
            ctx := { w.ctx with
              pending_receives := w.ctx.pending_receives.erase overlapped.ptr,
              receives_posted := w.ctx.receives_posted - 1,
              refcount := w.ctx.refcount - 1 } }
      else
        post_receives
          { deliver w sender buffer bytes_transferred with
            ctx := { w.ctx with
              pending_receives := w.ctx.pending_receives.erase overlapped.ptr,
              receives_posted := w.ctx.receives_posted - 1,
              refcount := w.ctx.refcount - 1 } }
          env := by
    unfold udp_socket_completion
    rw [if_neg hns, if_pos hrecv]
    simp only
    unfold read_completed lwp_release
    simp only [d1]
    by_cases hz : w.ctx.refcount - 1 = 0
    · rw [if_pos hz, if_pos hz]
    · rw [if_neg hz, if_neg hz]
  refine ⟨main, ?_, ?_⟩
  · intro hz
    rw [main, if_pos hz]
    unfold lw_udp_dealloc
    simp only
    split_ifs
    · exact ⟨d2, rfl, hz⟩
    · exact ⟨d2, rfl, hz⟩
  · intro hz hall
    rw [main, if_neg hz]
    unfold post_receives
    obtain ⟨a1, a2, _, _⟩ := post_receives_loop_all_succeed env hall
      (ideal_pending_receive_count - (w.ctx.receives_posted - 1)).toNat 0
      { deliver w sender buffer bytes_transferred with
        ctx := { w.ctx with
          pending_receives := w.ctx.pending_receives.erase overlapped.ptr,
          receives_posted := w.ctx.receives_posted - 1,
          refcount := w.ctx.refcount - 1 } }
      (by show w.ctx.receives_posted - 1 ≤ ideal_pending_receive_count
          unfold ideal_pending_receive_count
          omega)
      (le_refl _)
    refine ⟨a1, ?_, ?_⟩
    · rw [a2, d2]
      rfl
    · intro h16
      obtain ⟨h1, h2, h3⟩ := hall 0
      have hc : ¬ ((env 0).overlapped_calloc = false) := by simp [h2]
      have hg : ¬ (genuine_error (env 0).wsa_recv_from = true) := by simp [h3]
      have hfuel : (ideal_pending_receive_count - (w.ctx.receives_posted - 1)).toNat = 1 := by
        unfold ideal_pending_receive_count
        omega
      have hlt : w.ctx.receives_posted - 1 < ideal_pending_receive_count := by
        unfold ideal_pending_receive_count
        omega
      show (post_receives_loop
          (ideal_pending_receive_count - (w.ctx.receives_posted - 1)).toNat env 0 _).kernel = _ ∧
        (post_receives_loop
          (ideal_pending_receive_count - (w.ctx.receives_posted - 1)).toNat env 0
            _).ctx.pending_receives = _ ∧
        (post_receives_loop
          (ideal_pending_receive_count - (w.ctx.receives_posted - 1)).toNat env 0
            _).ctx.refcount = _
      rw [hfuel, post_receives_loop_succ]
      rw [if_pos hlt, if_pos h1, if_neg hc, if_neg hg]
      simp only [post_receives_loop, d2, d3]
      refine ⟨trivial, trivial, ?_⟩
      omega

end Lacewing

namespace Lacewing

theorem all_succeed_always_pending : all_succeed always_pending :=
  fun _ => ⟨rfl, rfl, rfl⟩

/-- C4 on the hosting context with its 16 receives posted: the completion of
the first one leaves 16 posted, the new request being the only addition. -/
theorem C4_receive_completion_reposts_witness :
    hosting.ctx.receives_posted = 16 ∧ hosting.ctx.refcount - 1 ≠ 0 ∧
    (udp_socket_completion hosting
        { ptr := 1, type := overlapped_type_receive, tag := some 0 } 3 0 9 [104, 105, 33]
        always_pending).ctx.receives_posted = 16 ∧
    (udp_socket_completion hosting
        { ptr := 1, type := overlapped_type_receive, tag := some 0 } 3 0 9 [104, 105, 33]
        always_pending).ctx.pending_receives =
      hosting.ctx.pending_receives.erase 1 ++ [hosting.next_alloc + 1] :=
  have h := C4_receive_completion_reposts hosting
    { ptr := 1, type := overlapped_type_receive, tag := some 0 } 3 0 9 [104, 105, 33]
    always_pending rfl (by decide)
  have h2 := h.2.2 (by decide) all_succeed_always_pending
  ⟨by decide, by decide, h2.1, (h2.2.2 (by decide)).2.1⟩

/-! ## The send path (C5, C6) -/

/-- C5, the code at the failing input: `lw_udp_send` on a fresh context (never
hosted, `on_error` set) with a ready address, where `WSASendTo` fails with
`WSAENOTSOCK`.  The error is reported and no request is held by the kernel, so
no completion follows, yet `writes_posted` stays at 1 and the reference count
at 2 instead of returning to 0 and 1. -/
theorem C5_failed_send_stays_counted :
    (lw_udp_on_error fresh true).ctx.writes_posted = 0 ∧
    (lw_udp_on_error fresh true).ctx.refcount = 1 ∧
    (lw_udp_send (lw_udp_on_error fresh true) (some { ready := true, info := some 3 })
        [104, 105] 2 true (some 10038)).ctx.writes_posted = 1 ∧
    (lw_udp_send (lw_udp_on_error fresh true) (some { ready := true, info := some 3 })
        [104, 105] 2 true (some 10038)).ctx.refcount = 2 ∧
    (lw_udp_send (lw_udp_on_error fresh true) (some { ready := true, info := some 3 })
        [104, 105] 2 true (some 10038)).kernel = [] ∧
    (lw_udp_send (lw_udp_on_error fresh true) (some { ready := true, info := some 3 })
        [104, 105] 2 true (some 10038)).trace =
      [Event.on_error [ErrorItem.wsa_code 10038, ErrorItem.error_sending_datagram]] := by
  decide

/-- C6: a call of `lw_udp_send` whose address is null, not ready or without
resolved info invokes `on_error` exactly once when the hook is set and does
nothing else: no request is submitted and `writes_posted`, `receives_posted`
and the reference count are unchanged. -/
theorem C6_send_rejects_unready_address (w : World) (addr : Option lw_addr)
    (buffer : List Nat) (size : Nat) (calloc_ok : Bool) (wsa_send_to : Option Int)
    (hbad : addr = none ∨ ∃ a, addr = some a ∧ (a.ready = false ∨ a.info = none)) :
    lw_udp_send w addr buffer size calloc_ok wsa_send_to =
      (if w.ctx.on_error = true then
        { w with trace := w.trace ++
            [Event.on_error [ErrorItem.address_not_ready, ErrorItem.error_sending_datagram]] }
       else w) ∧
    (lw_udp_send w addr buffer size calloc_ok wsa_send_to).kernel = w.kernel ∧
    (lw_udp_send w addr buffer size calloc_ok wsa_send_to).ctx = w.ctx ∧
    on_error_calls (lw_udp_send w addr buffer size calloc_ok wsa_send_to).trace =
      on_error_calls w.trace + (if w.ctx.on_error = true then 1 else 0) := by
  have main : lw_udp_send w addr buffer size calloc_ok wsa_send_to =
      (if w.ctx.on_error = true then
        { w with trace := w.trace ++
            [Event.on_error [ErrorItem.address_not_ready, ErrorItem.error_sending_datagram]] }
       else w) := by
    unfold lw_udp_send
    rcases hbad with h | ⟨a, h, ha⟩
    · subst h
      rfl
    · subst h
      simp only
      rw [if_pos ha]
  rw [main]
  refine ⟨rfl, ?_, ?_, ?_⟩
  · split_ifs <;> rfl
  · split_ifs <;> rfl
  · split_ifs
    · simp [on_error_calls]
    · simp

/-- C6 on the hosting context with an address that is still resolving. -/
theorem C6_send_rejects_unready_address_witness :
    on_error_calls
      (lw_udp_send hosting (some { ready := false, info := none }) [104, 105] 2 true
        none).trace = 1 ∧
    (lw_udp_send hosting (some { ready := false, info := none }) [104, 105] 2 true
        none).kernel = hosting.kernel ∧
    (lw_udp_send hosting (some { ready := false, info := none }) [104, 105] 2 true
        none).ctx = hosting.ctx :=
  have h := C6_send_rejects_unready_address hosting (some { ready := false, info := none })
    [104, 105] 2 true none (Or.inr ⟨_, rfl, Or.inl rfl⟩)
  ⟨h.2.2.2.trans (by decide), h.2.1, h.2.2.1⟩

end Lacewing

/-! ## Failure to post a receive (C7) -/

namespace Lacewing

/-- The loop of `post_receives` at a failure: after `k` successful attempts the
attempt that cannot allocate the overlapped or whose `WSARecvFrom` fails ends
the loop; the `k` new receives are appended and nothing else changes. -/
theorem post_receives_loop_stops (env : Nat → RecvAttempt) :
    ∀ (k fuel i : Nat) (w : World), k < fuel → 0 < w.ctx.refcount →
      w.ctx.receives_posted + k < ideal_pending_receive_count →
      (∀ j, j < k → (env (i + j)).info_malloc = true ∧
        (env (i + j)).overlapped_calloc = true ∧
        genuine_error (env (i + j)).wsa_recv_from = false) →
      (env (i + k)).info_malloc = true →
      ((env (i + k)).overlapped_calloc = false ∨
        genuine_error (env (i + k)).wsa_recv_from = true) →
      (post_receives_loop fuel env i w).trace = w.trace ∧
      (post_receives_loop fuel env i w).fault = w.fault ∧
      (post_receives_loop fuel env i w).freed = w.freed ∧
      ∃ l : List udp_overlapped, l.length = k ∧
        (post_receives_loop fuel env i w).kernel = w.kernel ++ l ∧
        (post_receives_loop fuel env i w).ctx =
          { w.ctx with
            refcount := w.ctx.refcount + k,
            pending_receives := w.ctx.pending_receives ++ l.map (fun o => o.ptr),
            receives_posted := w.ctx.receives_posted + k } := by
  intro k
  induction k with
  | zero =>
    intro fuel i w hfuel hpos hroom _ hinfo hfail
    obtain ⟨f, rfl⟩ : ∃ f, fuel = f + 1 := ⟨fuel - 1, by omega⟩
    have hlt : w.ctx.receives_posted < ideal_pending_receive_count := by omega
    rw [Nat.add_zero] at hinfo hfail
    rw [post_receives_loop_succ, if_pos hlt, if_pos hinfo]
    by_cases hc : (env i).overlapped_calloc = false
    · rw [if_pos hc]
      refine ⟨rfl, rfl, rfl, [], rfl, ?_, ?_⟩
      · simp
      · simp
    · have hg : genuine_error (env i).wsa_recv_from = true := by
        rcases hfail with h | h
        · exact absurd h hc
        · exact h
      rw [if_neg hc, if_pos hg]
      have hne : ¬ ((lwp_retain { w with next_alloc := w.next_alloc + 1 + 1 }).ctx.refcount - 1 = 0) := by
        show ¬ (w.ctx.refcount + 1 - 1 = 0)
        omega
      rw [lwp_release_more _ hne]
      refine ⟨rfl, rfl, rfl, [], rfl, ?_, ?_⟩
      · simp [lwp_retain]
      · simp [lwp_retain]
  | succ k ih =>
    intro fuel i w hfuel hpos hroom hok hinfo hfail
    obtain ⟨f, rfl⟩ : ∃ f, fuel = f + 1 := ⟨fuel - 1, by omega⟩
    have hlt : w.ctx.receives_posted < ideal_pending_receive_count := by omega
    obtain ⟨h1, h2, h3⟩ := hok 0 (by omega)
    rw [Nat.add_zero] at h1 h2 h3
    have hc : ¬ ((env i).overlapped_calloc = false) := by simp [h2]
    have hg : ¬ (genuine_error (env i).wsa_recv_from = true) := by simp [h3]
    rw [post_receives_loop_succ, if_pos hlt, if_pos h1, if_neg hc, if_neg hg]
    have hidx : ∀ j, i + 1 + j = i + (j + 1) := fun j => by omega
    obtain ⟨a1, a2, a3, l, a4, a5, a6⟩ := ih f (i + 1)
      { w with
        ctx := { w.ctx with
          refcount := w.ctx.refcount + 1,
          pending_receives := w.ctx.pending_receives ++ [w.next_alloc + 1],
          receives_posted := w.ctx.receives_posted + 1 },
        kernel := w.kernel ++
          [{ ptr := w.next_alloc + 1, type := overlapped_type_receive,
             tag := some w.next_alloc }],
        next_alloc := w.next_alloc + 1 + 1 }
      (by omega)
      (by show 0 < w.ctx.refcount + 1
          omega)
      (by show w.ctx.receives_posted + 1 + (k : Int) < ideal_pending_receive_count
          push_cast at hroom
          omega)
      (fun j hj => by rw [hidx]; exact hok (j + 1) (by omega))
      (by rw [hidx]; exact hinfo)
      (by rw [hidx]; exact hfail)
    refine ⟨a1, a2, a3,
      { ptr := w.next_alloc + 1, type := overlapped_type_receive,
        tag := some w.next_alloc } :: l, ?_, ?_, ?_⟩
    · simp [a4]
    · rw [a5]
      simp
    · rw [a6]
      simp only [List.map_cons, List.append_assoc, List.singleton_append]
      push_cast
      congr 1 <;> omega

/-- C7 as the code has it: when, after `k` receives were posted, `post_receives`
cannot allocate the overlapped or `WSARecvFrom` fails with a genuine error, it
stops posting although fewer than 16 are posted, keeps what was posted before
(the `k` new receives are appended to the old ones) and invokes no hook: the
failure is not reported to `on_error`. -/
theorem C7_post_receives_stops_silently (w : World) (env : Nat → RecvAttempt) (k : Nat)
    (hrefs : 0 < w.ctx.refcount)
    (hroom : w.ctx.receives_posted + k < 16)
    (hok : ∀ j, j < k → (env j).info_malloc = true ∧ (env j).overlapped_calloc = true ∧
      genuine_error (env j).wsa_recv_from = false)
    (hinfo : (env k).info_malloc = true)
    (hfail : (env k).overlapped_calloc = false ∨
      genuine_error (env k).wsa_recv_from = true) :
    (post_receives w env).trace = w.trace ∧
    on_error_calls (post_receives w env).trace = on_error_calls w.trace ∧
    (post_receives w env).fault = w.fault ∧
    (post_receives w env).freed = w.freed ∧
    ∃ l : List udp_overlapped, l.length = k ∧
      (post_receives w env).kernel = w.kernel ++ l ∧
      (post_receives w env).ctx =
        { w.ctx with
          refcount := w.ctx.refcount + k,
          pending_receives := w.ctx.pending_receives ++ l.map (fun o => o.ptr),
          receives_posted := w.ctx.receives_posted + k } := by
  have hfuel : k < (ideal_pending_receive_count - w.ctx.receives_posted).toNat := by
    unfold ideal_pending_receive_count
    omega
  obtain ⟨a1, a2, a3, a4⟩ := post_receives_loop_stops env k
    (ideal_pending_receive_count - w.ctx.receives_posted).toNat 0 w hfuel hrefs hroom
    (fun j hj => by rw [Nat.zero_add]; exact hok j hj)
    (by rw [Nat.zero_add]; exact hinfo)
    (by rw [Nat.zero_add]; exact hfail)
  exact ⟨a1, by rw [show (post_receives w env).trace = w.trace from a1], a2, a3, a4⟩

/-- C7 on a bound context with `on_error` set, where the fourth `WSARecvFrom`
fails: three receives are posted and the hook is not invoked. -/
theorem C7_post_receives_stops_silently_witness :
    bound.ctx.on_error = true ∧
    (post_receives bound three_then_failing).ctx.receives_posted = 3 ∧
    on_error_calls (post_receives bound three_then_failing).trace = 0 :=
  have h := C7_post_receives_stops_silently bound three_then_failing 3
    (by decide) (by decide)
    (fun j hj => by
      have : j = 0 ∨ j = 1 ∨ j = 2 := by omega
      rcases this with h | h | h <;> subst h <;> decide)
    (by decide) (Or.inr (by decide))
  ⟨by decide, by
    obtain ⟨l, _, _, hctx⟩ := h.2.2.2.2
    rw [hctx]
    show bound.ctx.receives_posted + ((3 : Nat) : Int) = 3
    decide, h.2.1.trans (by decide)⟩

/-- C7 as stated fails: on a bound context with `on_error` set, the first
`WSARecvFrom` fails with a genuine error and `post_receives` returns without
having invoked `on_error`. -/
theorem C7_on_error_not_invoked :
    bound.ctx.on_error = true ∧
    genuine_error (always_failing 0).wsa_recv_from = true ∧
    on_error_calls (post_receives bound always_failing).trace = 0 ∧
    ¬ (on_error_calls (post_receives bound always_failing).trace = 1) := by
  decide

end Lacewing

/-! ## Hosting and unhosting (C8, C9) -/

namespace Lacewing

theorem lw_udp_unhost_of_not_hosting (w : World) (h : lw_udp_hosting w.ctx = false) :
    lw_udp_unhost w = w := by
  unfold lw_udp_hosting at h
  unfold lw_udp_unhost
  cases hs : w.ctx.socket with
  | none => rfl
  | some s => rw [hs] at h; simp at h

theorem lw_udp_unhost_not_hosting (w : World) :
    lw_udp_hosting (lw_udp_unhost w).ctx = false := by
  unfold lw_udp_unhost lw_udp_hosting
  cases hs : w.ctx.socket with
  | none => simp [hs]
  | some s => simp

/-- C8 as the code has it: when `lw_udp_host_filter` fails to create the server
socket, the error is handed to `on_error` (if set) before the call returns, and
the reference count, `receives_posted`, `writes_posted`, the pending receives
and the requests held by the kernel are as before.  A context that was not
hosting is unchanged.  A context that was hosting has been unhosted first:
its socket is closed and invalid, its filter cleared, and it is not hosting
afterwards. -/
theorem C8_failed_host_leaves_unhosted (w : World) (filter : lw_filter)
    (error : List ErrorItem) (env : Nat → RecvAttempt) :
    (lw_udp_host_filter w filter (Except.error error) env).trace =
      (lw_udp_unhost w).trace ++ (if w.ctx.on_error = true then [Event.on_error error] else []) ∧
    (lw_udp_host_filter w filter (Except.error error) env).ctx = (lw_udp_unhost w).ctx ∧
    (lw_udp_host_filter w filter (Except.error error) env).kernel = w.kernel ∧
    (lw_udp_host_filter w filter (Except.error error) env).ctx.refcount = w.ctx.refcount ∧
    (lw_udp_host_filter w filter (Except.error error) env).ctx.receives_posted =
      w.ctx.receives_posted ∧
    (lw_udp_host_filter w filter (Except.error error) env).ctx.writes_posted =
      w.ctx.writes_posted ∧
    (lw_udp_host_filter w filter (Except.error error) env).ctx.pending_receives =
      w.ctx.pending_receives ∧
    lw_udp_hosting (lw_udp_host_filter w filter (Except.error error) env).ctx = false ∧
    (lw_udp_host_filter w filter (Except.error error) env).ctx.filter =
      (if lw_udp_hosting w.ctx = true then none else w.ctx.filter) ∧
    (lw_udp_hosting w.ctx = false →
      (lw_udp_host_filter w filter (Except.error error) env).ctx = w.ctx) := by
  rcases w with ⟨⟨rc, pw, od, oe, fl, pt, so, pr, rp, wp⟩, fr, ow, k, na, tr, fa⟩
  cases so <;> cases oe <;> simp [lw_udp_host_filter, lw_udp_unhost, lw_udp_hosting]

/-- C8 on a context that is not hosting: the failed call changes nothing but
the trace, where the error is reported. -/
theorem C8_failed_host_leaves_unhosted_witness :
    lw_udp_hosting (lw_udp_on_error fresh true).ctx = false ∧
    (lw_udp_host_filter (lw_udp_on_error fresh true)
        { remote := none, local_port := 6121, ipv6 := false }
        (Except.error [ErrorItem.create_server_socket 10048]) always_pending).ctx =
      (lw_udp_on_error fresh true).ctx ∧
    (lw_udp_host_filter (lw_udp_on_error fresh true)
        { remote := none, local_port := 6121, ipv6 := false }
        (Except.error [ErrorItem.create_server_socket 10048]) always_pending).trace =
      [Event.on_error [ErrorItem.create_server_socket 10048]] :=
  have h := C8_failed_host_leaves_unhosted (lw_udp_on_error fresh true)
    { remote := none, local_port := 6121, ipv6 := false }
    [ErrorItem.create_server_socket 10048] always_pending
  ⟨by decide, h.2.2.2.2.2.2.2.2.2 (by decide), h.1.trans (by decide)⟩

/-- C8 as stated fails: the hosting context is hosted again on a port that
cannot be bound; afterwards it is not hosting any more, its socket is invalid
and its filter is gone. -/
theorem C8_failed_rehost_tears_down :
    lw_udp_hosting hosting.ctx = true ∧
    lw_udp_hosting
      (lw_udp_host_filter hosting { remote := none, local_port := 6122, ipv6 := false }
        (Except.error [ErrorItem.create_server_socket 10048]) always_pending).ctx = false ∧
    hosting.ctx.socket = some 5 ∧
    (lw_udp_host_filter hosting { remote := none, local_port := 6122, ipv6 := false }
        (Except.error [ErrorItem.create_server_socket 10048]) always_pending).ctx.socket =
      none ∧
    hosting.ctx.filter = some { remote := none, local_port := 6121, ipv6 := false } ∧
    (lw_udp_host_filter hosting { remote := none, local_port := 6122, ipv6 := false }
        (Except.error [ErrorItem.create_server_socket 10048]) always_pending).ctx.filter =
      none := by
  decide

/-- C9: `lw_udp_unhost` never frees the context and leaves the reference count,
`receives_posted`, `writes_posted`, the pending receives and the requests held
by the kernel as they are; afterwards the context is not hosting; on a context
that is not hosting it changes nothing, and a second call changes nothing
after the first. -/
theorem C9_unhost_keeps_accounting (w : World) :
    lw_udp_hosting (lw_udp_unhost w).ctx = false ∧
    (lw_udp_unhost w).freed = w.freed ∧
    (lw_udp_unhost w).fault = w.fault ∧
    (lw_udp_unhost w).ctx.refcount = w.ctx.refcount ∧
    (lw_udp_unhost w).ctx.receives_posted = w.ctx.receives_posted ∧
    (lw_udp_unhost w).ctx.writes_posted = w.ctx.writes_posted ∧
    (lw_udp_unhost w).ctx.pending_receives = w.ctx.pending_receives ∧
    (lw_udp_unhost w).kernel = w.kernel ∧
    (lw_udp_hosting w.ctx = false → lw_udp_unhost w = w) ∧
    lw_udp_unhost (lw_udp_unhost w) = lw_udp_unhost w := by
  refine ⟨lw_udp_unhost_not_hosting w, unhost_freed w, unhost_fault w, ?_, ?_, ?_, ?_, ?_,
    lw_udp_unhost_of_not_hosting w,
    lw_udp_unhost_of_not_hosting _ (lw_udp_unhost_not_hosting w)⟩ <;>
  · unfold lw_udp_unhost
    split <;> rfl

/-- C9 on the hosting context: it stops hosting with its 16 receives and 17
references in place, and on the fresh context, which is not hosting, the call
changes nothing. -/
theorem C9_unhost_keeps_accounting_witness :
    lw_udp_hosting hosting.ctx = true ∧
    lw_udp_hosting (lw_udp_unhost hosting).ctx = false ∧
    (lw_udp_unhost hosting).ctx.refcount = 17 ∧
    (lw_udp_unhost hosting).ctx.receives_posted = 16 ∧
    lw_udp_unhost fresh = fresh :=
  have h := C9_unhost_keeps_accounting hosting
  ⟨by decide, h.1, h.2.2.2.1.trans (by decide), h.2.2.2.2.1.trans (by decide),
   (C9_unhost_keeps_accounting fresh).2.2.2.2.2.2.2.2.1 (by decide)⟩

end Lacewing

/-! ## Expiry of ban entries on connect (C10) -/

namespace Relay

theorem UpdateTitle_banIPList (g : Globals) (clientCount channelCount : Nat) :
    (UpdateTitle g clientCount channelCount).banIPList = g.banIPList := by
  unfold UpdateTitle
  simp only
  split_ifs <;> rfl

/-- C10 as the code has it: when `banIPList` holds an entry for the connecting
IP, `OnConnectRequest` removes the entry and accepts the connection if and only
if `resetAt < now`, that is when the reset time lies strictly in the past.  An
entry with `now = resetAt` stays in the list: with more than 3 disconnects the
connection is denied with the entry's reason and the ban is extended,
otherwise the list is unchanged. -/
theorem C10_ban_evicted_iff_reset_passed (lw_addr_prettystring : String → String)
    (g : Globals) (cl : client) (now now2 : Int) (clientCount channelCount : Nat)
    (b : BanEntry)
    (hfound : g.banIPList[g.banIPList.findIdx
        (fun e => e.ip == lw_addr_prettystring cl.address)]? = some b) :
    (((OnConnectRequest lw_addr_prettystring g cl now now2 clientCount
          channelCount).1.banIPList =
        g.banIPList.eraseIdx
          (g.banIPList.findIdx (fun e => e.ip == lw_addr_prettystring cl.address)) ∧
      (OnConnectRequest lw_addr_prettystring g cl now now2 clientCount channelCount).2 = "")
      ↔ b.resetAt < now) ∧
    (now = b.resetAt →
      (OnConnectRequest lw_addr_prettystring g cl now now2 clientCount
          channelCount).1.banIPList.length = g.banIPList.length ∧
      (b.disconnects > 3 →
        (OnConnectRequest lw_addr_prettystring g cl now now2 clientCount channelCount).2 =
          b.reason) ∧
      (¬ b.disconnects > 3 →
        (OnConnectRequest lw_addr_prettystring g cl now now2 clientCount
          channelCount).1.banIPList = g.banIPList)) := by
  have hlt : g.banIPList.findIdx (fun e => e.ip == lw_addr_prettystring cl.address) <
      g.banIPList.length := by
    by_contra hge
    rw [List.getElem?_eq_none (Nat.le_of_not_lt hge)] at hfound
    cases hfound
  have hlen : (g.banIPList.eraseIdx
      (g.banIPList.findIdx (fun e => e.ip == lw_addr_prettystring cl.address))).length + 1 =
      g.banIPList.length := by
    rw [List.length_eraseIdx, if_pos hlt]
    omega
  unfold OnConnectRequest
  simp only [hfound]
  by_cases hpast : b.resetAt < now
  · rw [if_pos hpast]
    refine ⟨⟨fun _ => hpast, fun _ => ⟨?_, rfl⟩⟩, ?_⟩
    · simp only [UpdateTitle_banIPList]
    · intro heq
      omega
  · rw [if_neg hpast]
    by_cases hd : b.disconnects > 3
    · rw [if_pos hd]
      refine ⟨⟨fun h => ?_, fun h => absurd h hpast⟩, fun _ => ⟨?_, fun _ => rfl, fun h => absurd hd h⟩⟩
      · exfalso
        have h1 := congrArg List.length h.1
        simp only [List.length_set] at h1
        omega
      · simp only [List.length_set]
    · rw [if_neg hd]
      refine ⟨⟨fun h => ?_, fun h => absurd h hpast⟩, fun _ => ⟨?_, fun h => absurd h hd, fun _ => ?_⟩⟩
      · exfalso
        have h1 := congrArg List.length h.1
        simp only [UpdateTitle_banIPList] at h1
        omega
      · simp only [UpdateTitle_banIPList]
      · simp only [UpdateTitle_banIPList]

/-- C10 as the code has it, one second after the reset time of the entry for
10.0.0.7: the entry is removed and the connection accepted. -/
theorem C10_ban_evicted_iff_reset_passed_witness :
    (OnConnectRequest id banned_once visitor 1001 1001 1 0).1.banIPList = [] ∧
    (OnConnectRequest id banned_once visitor 1001 1001 1 0).2 = "" :=
  (C10_ban_evicted_iff_reset_passed id banned_once visitor 1001 1001 1 0
    { ip := "10.0.0.7", disconnects := 4, reason := "Broken Lacewing protocol",
      resetAt := 1000 }
    (by decide)).1.mpr (by decide)

/-- C10 as stated fails: at `now = resetAt = 1000` the entry for 10.0.0.7 is not
removed; the connection is denied with the entry's reason and the ban is
extended by 16 hours. -/
theorem C10_entry_enforced_at_reset_time :
    banned_once.banIPList.map (fun e => (e.ip, e.resetAt)) = [(visitor.address, 1000)] ∧
    (1000 : Int) ≥ 1000 ∧
    (OnConnectRequest id banned_once visitor 1000 1000 1 0).1.banIPList =
      [{ ip := "10.0.0.7", disconnects := 5, reason := "Broken Lacewing protocol",
         resetAt := 1000 + 16 * 60 * 60 }] ∧
    (OnConnectRequest id banned_once visitor 1000 1000 1 0).2 = "Broken Lacewing protocol" := by
  decide

end Relay

/-! ## Lemmas on `find_if` over a vector -/

namespace Relay

/-- The element at the index `find_if` returns is the first one that satisfies
the predicate. -/
theorem getElem?_findIdx {α : Type} (q : α → Bool) :
    ∀ l : List α, l[l.findIdx q]? = l.find? q := by
  intro l
  induction l with
  | nil => rfl
  | cons a l ih =>
    rw [List.findIdx_cons, List.find?_cons]
    cases h : q a
    · simpa using ih
    · simp

/-- Overwriting the element `find_if` found with one that still satisfies the
predicate makes it the element found. -/
theorem find?_set_found {α : Type} (q : α → Bool) (x : α) (hx : q x = true) :
    ∀ l : List α, l.findIdx q < l.length → (l.set (l.findIdx q) x).find? q = some x := by
  intro l
  induction l with
  | nil => intro h; simp at h
  | cons a l ih =>
    intro h
    rw [List.findIdx_cons] at h ⊢
    cases ha : q a
    · rw [ha] at h
      simp only [cond_false, List.length_cons, Nat.add_lt_add_iff_right] at h
      simp only [cond_false, List.set_cons_succ, List.find?_cons, ha]
      exact ih h
    · simp [hx]

/-- Overwriting an element leaves the search for a predicate alone when
neither the old nor the new element satisfies it. -/
theorem find?_set_other {α : Type} (q : α → Bool) (x : α) (hx : q x = false) :
    ∀ (l : List α) (i : Nat) (y : α), l[i]? = some y → q y = false →
      (l.set i x).find? q = l.find? q := by
  intro l
  induction l with
  | nil => intro i y h; simp at h
  | cons a l ih =>
    intro i y h hy
    cases i with
    | zero =>
      simp only [List.getElem?_cons_zero, Option.some.injEq] at h
      subst h
      simp [List.find?_cons, hx, hy]
    | succ i =>
      simp only [List.getElem?_cons_succ] at h
      simp only [List.set_cons_succ, List.find?_cons]
      rw [ih i y h hy]

/-- Erasing an element that does not satisfy the predicate leaves the search
alone. -/
theorem find?_eraseIdx_other {α : Type} (q : α → Bool) :
    ∀ (l : List α) (i : Nat) (y : α), l[i]? = some y → q y = false →
      (l.eraseIdx i).find? q = l.find? q := by
  intro l
  induction l with
  | nil => intro i y h; simp at h
  | cons a l ih =>
    intro i y h hy
    cases i with
    | zero =>
      simp only [List.getElem?_cons_zero, Option.some.injEq] at h
      subst h
      simp [List.find?_cons, hy]
    | succ i =>
      simp only [List.getElem?_cons_succ] at h
      simp only [List.eraseIdx_cons_succ, List.find?_cons]
      rw [ih i y h hy]

/-- When the keys are pairwise distinct, erasing the element with a key leaves
no element with that key. -/
theorem key_gone_of_eraseIdx {α : Type} (f : α → Nat) :
    ∀ (l : List α) (i : Nat) (y : α), (l.map f).Nodup → l[i]? = some y →
      ∀ z ∈ l.eraseIdx i, f z ≠ f y := by
  intro l
  induction l with
  | nil => intro i y _ h; simp at h
  | cons a l ih =>
    intro i y hnd h z hz
    rw [List.map_cons, List.nodup_cons] at hnd
    cases i with
    | zero =>
      simp only [List.getElem?_cons_zero, Option.some.injEq] at h
      subst h
      simp only [List.eraseIdx_cons_zero] at hz
      intro heq
      exact hnd.1 (heq ▸ List.mem_map_of_mem f hz)
    | succ i =>
      simp only [List.getElem?_cons_succ] at h
      simp only [List.eraseIdx_cons_succ, List.mem_cons] at hz
      rcases hz with hz | hz
      · subst hz
        intro heq
        have hy : y ∈ l := List.getElem?_mem h
        exact hnd.1 (heq ▸ List.mem_map_of_mem f hy)
      · exact ih i y hnd.2 h z hz

theorem to_int_of_fits (x : Int) (h1 : -2147483648 ≤ x) (h2 : x < 2147483648) :
    to_int x = x := by
  unfold to_int
  omega

theorem to_size_t_of_fits (n : Nat) (h : n < 18446744073709551616) : to_size_t n = n := by
  unfold to_size_t
  omega

theorem UpdateTitle_clientdata (g : Globals) (clientCount channelCount : Nat) :
    (UpdateTitle g clientCount channelCount).clientdata = g.clientdata := by
  unfold UpdateTitle
  simp only
  split_ifs <;> rfl

end Relay

/-! ## Enforcement of unexpired ban entries (C11) -/

namespace Relay

/-- C11: in `OnConnectRequest`, for a ban entry of the connecting IP that the
expiry test keeps (not `resetAt < now`) with disconnect count `d`: if `d > 3`
the connection is denied with the entry's reason, `resetAt` becomes the time of
the extension plus `d << 2` hours computed from the count before the increment
(`d * 4 * 60 * 60` seconds as long as the shift stays within `int`), the count
becomes `d + 1` and `clientdata` is unchanged; if `d <= 3` the connection is
accepted with an empty deny reason, the ban list is unchanged and one
`clientstats` record for the client is appended. -/
theorem C11_unexpired_entry_enforced_above_three
    (lw_addr_prettystring : String → String) (g : Globals) (cl : client) (now now2 : Int)
    (clientCount channelCount : Nat) (b : BanEntry)
    (hfound : g.banIPList[g.banIPList.findIdx
        (fun e => e.ip == lw_addr_prettystring cl.address)]? = some b)
    (hkept : ¬ b.resetAt < now) :
    (3 < b.disconnects → b.disconnects < 536870912 →
      (OnConnectRequest lw_addr_prettystring g cl now now2 clientCount channelCount).2 =
        b.reason ∧
      (OnConnectRequest lw_addr_prettystring g cl now now2 clientCount
          channelCount).1.banIPList =
        g.banIPList.set
          (g.banIPList.findIdx (fun e => e.ip == lw_addr_prettystring cl.address))
          { b with resetAt := now2 + b.disconnects * 4 * 60 * 60,
                   disconnects := b.disconnects + 1 } ∧
      (OnConnectRequest lw_addr_prettystring g cl now now2 clientCount
          channelCount).1.clientdata = g.clientdata) ∧
    (b.disconnects ≤ 3 →
      (OnConnectRequest lw_addr_prettystring g cl now now2 clientCount channelCount).2 = "" ∧
      (OnConnectRequest lw_addr_prettystring g cl now now2 clientCount
          channelCount).1.banIPList = g.banIPList ∧
      (OnConnectRequest lw_addr_prettystring g cl now now2 clientCount
          channelCount).1.clientdata = g.clientdata ++ [clientstats.new cl]) := by
  unfold OnConnectRequest
  simp only [hfound]
  rw [if_neg hkept]
  constructor
  · intro hd hfit
    rw [if_pos hd]
    rw [to_int_of_fits (b.disconnects * 4) (by omega) (by omega),
      to_int_of_fits (b.disconnects + 1) (by omega) (by omega)]
    exact ⟨rfl, rfl, rfl⟩
  · intro hd
    rw [if_neg (by omega)]
    refine ⟨rfl, ?_, ?_⟩
    · simp only [UpdateTitle_banIPList]
    · simp only [UpdateTitle_clientdata]

/-- C11 one second before the reset time of the entry for 10.0.0.7, which has
4 disconnects: the connection is denied with the reason of the entry, the count
becomes 5 and the ban runs 16 hours from now. -/
theorem C11_unexpired_entry_enforced_above_three_witness :
    (OnConnectRequest id banned_once visitor 999 999 1 0).2 = "Broken Lacewing protocol" ∧
    (OnConnectRequest id banned_once visitor 999 999 1 0).1.banIPList =
      [{ ip := "10.0.0.7", disconnects := 5, reason := "Broken Lacewing protocol",
         resetAt := 999 + 16 * 60 * 60 }] ∧
    (OnConnectRequest id banned_once visitor 999 999 1 0).1.clientdata = [] :=
  have h := (C11_unexpired_entry_enforced_above_three id banned_once visitor 999 999 1 0
    { ip := "10.0.0.7", disconnects := 4, reason := "Broken Lacewing protocol",
      resetAt := 1000 }
    (by decide) (by decide)).1 (by decide) (by decide)
  ⟨h.1, h.2.1.trans (by decide), h.2.2⟩

end Relay

/-! ## Server messages the server is not meant to handle (C12, C13) -/

namespace Relay

theorem record_ban_absent (l : List BanEntry) (addr ip reason : String) (resetAt : Int)
    (h : l.find? (fun b => b.ip == addr) = none) :
    record_ban l addr ip reason resetAt =
      l ++ [{ ip := ip, disconnects := 1, reason := reason, resetAt := resetAt }] := by
  unfold record_ban
  simp only [getElem?_findIdx, h]

theorem record_ban_present (l : List BanEntry) (addr ip reason : String) (resetAt : Int)
    (b : BanEntry) (h : l.find? (fun b => b.ip == addr) = some b) :
    record_ban l addr ip reason resetAt =
      l.set (l.findIdx (fun b => b.ip == addr))
        { b with disconnects := to_int (b.disconnects + 1) } := by
  unfold record_ban
  simp only [getElem?_findIdx, h]

/-- The call of `disconnect ()` leaves the ban list alone unless the handler
runs for a client that is not trusted. -/
theorem client_disconnect_banIPList (lw_addr_prettystring : String → String) (g : Globals)
    (cl : client) (env : DisconnectEnv)
    (h : env.handler_runs = false ∨ env.istrusted = true) :
    (client_disconnect lw_addr_prettystring g cl env).banIPList = g.banIPList := by
  unfold client_disconnect OnDisconnect
  cases hr : env.handler_runs
  · simp
  · have ht : env.istrusted = true := by
      rcases h with h | h
      · rw [hr] at h; cases h
      · exact h
    simp [ht, UpdateTitle_banIPList]

/-- The index of a tracked client is inside `clientdata`. -/
theorem findIdx_lt_of_stats (l : List clientstats) (p : Nat) (r : clientstats)
    (h : stats_of l p = some r) :
    l.findIdx (fun b => b.c.ptr == p) < l.length := by
  have h1 := getElem?_findIdx (fun b : clientstats => b.c.ptr == p) l
  unfold stats_of at h
  rw [h] at h1
  by_contra hge
  rw [List.getElem?_eq_none (Nat.le_of_not_lt hge)] at h1
  cases h1

theorem ptr_of_stats (l : List clientstats) (p : Nat) (r : clientstats)
    (h : stats_of l p = some r) : r.c.ptr = p := by
  unfold stats_of at h
  have := List.find?_some h
  simpa using this

/-- `OnServerMessage` on a message it drops, from a tracked client: the message
is counted for the client, and the ban and the disconnect follow exactly when
the count of wasted messages was above 5 before. -/
theorem OnServerMessage_dropped (lw_addr_prettystring : String → String) (g : Globals)
    (senderclient : client) (blasted : Bool) (subchannel : Nat) (data : List Nat)
    (variant : Nat) (now : Int) (env : DisconnectEnv) (r : clientstats)
    (htracked : stats_of g.clientdata senderclient.ptr = some r)
    (hdrop : (blasted || variant != 0 || (subchannel != 0 && subchannel != 5)) = true) :
    OnServerMessage lw_addr_prettystring g senderclient blasted subchannel data variant
        now env =
      if r.wastedServerMessages > 5 then
        (client_disconnect lw_addr_prettystring
          { g with
            numMessagesIn := to_size_t (g.numMessagesIn + 1),
            bytesIn := to_size_t (g.bytesIn + data.length),
            clientdata := g.clientdata.set
              (g.clientdata.findIdx (fun b => b.c.ptr == senderclient.ptr))
              { r with
                totalBytesIn := to_size_t (r.totalBytesIn + data.length),
                totalNumMessagesIn := to_size_t (r.totalNumMessagesIn + 1),
                wastedServerMessages := to_size_t (r.wastedServerMessages + 1) },
            banIPList := record_ban g.banIPList
              (lw_addr_prettystring senderclient.address)
              (lw_addr_prettystring senderclient.address)
              "Sending too many messages the server is not meant to handle."
              (now + 60 * 60) }
          senderclient env,
         [Effect.dropped_server_message (lw_addr_prettystring senderclient.address),
          Effect.send senderclient.ptr 1 Notice.banned_for_server_messages,
          Effect.disconnect senderclient.ptr])
      else
        ({ g with
            numMessagesIn := to_size_t (g.numMessagesIn + 1),
            bytesIn := to_size_t (g.bytesIn + data.length),
            clientdata := g.clientdata.set
              (g.clientdata.findIdx (fun b => b.c.ptr == senderclient.ptr))
              { r with
                totalBytesIn := to_size_t (r.totalBytesIn + data.length),
                totalNumMessagesIn := to_size_t (r.totalNumMessagesIn + 1),
                wastedServerMessages := to_size_t (r.wastedServerMessages + 1) } },
         [Effect.dropped_server_message (lw_addr_prettystring senderclient.address)]) := by
  have h1 := getElem?_findIdx (fun b : clientstats => b.c.ptr == senderclient.ptr)
    g.clientdata
  unfold stats_of at htracked
  rw [htracked] at h1
  unfold OnServerMessage
  simp only [hdrop, if_true, h1]

/-- After `OnServerMessage` has counted a dropped message without banning, the
record of the sender is the counted one. -/
theorem stats_of_set_counted (l : List clientstats) (p : Nat) (r x : clientstats)
    (h : stats_of l p = some r) (hx : x.c = r.c) :
    stats_of (l.set (l.findIdx (fun b => b.c.ptr == p)) x) p = some x := by
  have hp := ptr_of_stats l p r h
  unfold stats_of
  apply find?_set_found
  · rw [hx]; simpa using hp
  · exact findIdx_lt_of_stats l p r h

end Relay

namespace Relay

/-- While the count of wasted messages stays at most 6, a run of dropped
server messages of a tracked client only counts them: after `k` messages the
count has grown by `k` and the ban list is as before. -/
theorem run_wasted_messages (lw_addr_prettystring : String → String) (cfg : Config)
    (senderclient : client) (blasted : Bool) (subchannel : Nat) (data : List Nat)
    (variant : Nat) (now : Int) (env : DisconnectEnv)
    (hdrop : (blasted || variant != 0 || (subchannel != 0 && subchannel != 5)) = true) :
    ∀ (k : Nat) (g : Globals) (r : clientstats),
      stats_of g.clientdata senderclient.ptr = some r →
      r.wastedServerMessages + k ≤ 6 →
      ∃ rk : clientstats,
        stats_of (run lw_addr_prettystring cfg g
          (List.replicate k
            (Call.server_message senderclient blasted subchannel data variant now
              env))).clientdata senderclient.ptr = some rk ∧
        rk.wastedServerMessages = r.wastedServerMessages + k ∧
        (run lw_addr_prettystring cfg g
          (List.replicate k
            (Call.server_message senderclient blasted subchannel data variant now
              env))).banIPList = g.banIPList := by
  intro k
  induction k with
  | zero =>
    intro g r h _
    exact ⟨r, h, rfl, rfl⟩
  | succ k ih =>
    intro g r h hle
    have hnot : ¬ r.wastedServerMessages > 5 := by omega
    have hstep := OnServerMessage_dropped lw_addr_prettystring g senderclient blasted
      subchannel data variant now env r h hdrop
    rw [if_neg hnot] at hstep
    have hw : to_size_t (r.wastedServerMessages + 1) = r.wastedServerMessages + 1 :=
      to_size_t_of_fits _ (by omega)
    obtain ⟨rk, a1, a2, a3⟩ := ih
      (OnServerMessage lw_addr_prettystring g senderclient blasted subchannel data variant
        now env).1
      { r with
        totalBytesIn := to_size_t (r.totalBytesIn + data.length),
        totalNumMessagesIn := to_size_t (r.totalNumMessagesIn + 1),
        wastedServerMessages := to_size_t (r.wastedServerMessages + 1) }
      (by
        rw [hstep]
        exact stats_of_set_counted g.clientdata senderclient.ptr r _ h rfl)
      (by
        show to_size_t (r.wastedServerMessages + 1) + k ≤ 6
        rw [hw]
        omega)
    refine ⟨rk, a1, ?_, ?_⟩
    · rw [a2]
      show to_size_t (r.wastedServerMessages + 1) + k = _
      rw [hw]
      omega
    · show (run lw_addr_prettystring cfg
          (OnServerMessage lw_addr_prettystring g senderclient blasted subchannel data
            variant now env).1 _).banIPList = _
      rw [a3, hstep]

/-- C12 as the code has it: for a tracked client whose `wastedServerMessages`
starts at 0 and who sends consecutive server messages that are dropped, each of
the first six is dropped and counted without any ban or disconnect; the
seventh is the one on which `OnServerMessage` records or increments the ban
entry for the client's IP (a new entry expires 60 minutes later), sends the
notice and disconnects the client. -/
theorem C12_ban_on_seventh_wasted_message (lw_addr_prettystring : String → String)
    (cfg : Config) (g : Globals) (senderclient : client) (blasted : Bool)
    (subchannel : Nat) (data : List Nat) (variant : Nat) (now : Int)
    (env : DisconnectEnv) (r : clientstats)
    (htracked : stats_of g.clientdata senderclient.ptr = some r)
    (hzero : r.wastedServerMessages = 0)
    (hdrop : (blasted || variant != 0 || (subchannel != 0 && subchannel != 5)) = true) :
    (∀ k, k < 6 →
      (OnServerMessage lw_addr_prettystring
          (run lw_addr_prettystring cfg g
            (List.replicate k
              (Call.server_message senderclient blasted subchannel data variant now env)))
          senderclient blasted subchannel data variant now env).2 =
        [Effect.dropped_server_message (lw_addr_prettystring senderclient.address)] ∧
      (OnServerMessage lw_addr_prettystring
          (run lw_addr_prettystring cfg g
            (List.replicate k
              (Call.server_message senderclient blasted subchannel data variant now env)))
          senderclient blasted subchannel data variant now env).1.banIPList =
        g.banIPList) ∧
    (OnServerMessage lw_addr_prettystring
        (run lw_addr_prettystring cfg g
          (List.replicate 6
            (Call.server_message senderclient blasted subchannel data variant now env)))
        senderclient blasted subchannel data variant now env).2 =
      [Effect.dropped_server_message (lw_addr_prettystring senderclient.address),
       Effect.send senderclient.ptr 1 Notice.banned_for_server_messages,
       Effect.disconnect senderclient.ptr] ∧
    (env.handler_runs = false ∨ env.istrusted = true →
      (OnServerMessage lw_addr_prettystring
          (run lw_addr_prettystring cfg g
            (List.replicate 6
              (Call.server_message senderclient blasted subchannel data variant now env)))
          senderclient blasted subchannel data variant now env).1.banIPList =
        record_ban g.banIPList (lw_addr_prettystring senderclient.address)
          (lw_addr_prettystring senderclient.address)
          "Sending too many messages the server is not meant to handle."
          (now + 60 * 60)) ∧
    (g.banIPList.find? (fun b => b.ip == lw_addr_prettystring senderclient.address) = none →
      record_ban g.banIPList (lw_addr_prettystring senderclient.address)
          (lw_addr_prettystring senderclient.address)
          "Sending too many messages the server is not meant to handle."
          (now + 60 * 60) =
        g.banIPList ++
          [{ ip := lw_addr_prettystring senderclient.address, disconnects := 1,
             reason := "Sending too many messages the server is not meant to handle.",
             resetAt := now + 60 * 60 }]) := by
  refine ⟨?_, ?_, ?_, ?_⟩
  · intro k hk
    obtain ⟨rk, a1, a2, a3⟩ := run_wasted_messages lw_addr_prettystring cfg senderclient
      blasted subchannel data variant now env hdrop k g r htracked (by omega)
    have hnot : ¬ rk.wastedServerMessages > 5 := by omega
    rw [OnServerMessage_dropped lw_addr_prettystring _ senderclient blasted subchannel data
      variant now env rk a1 hdrop, if_neg hnot]
    exact ⟨rfl, a3⟩
  · obtain ⟨rk, a1, a2, a3⟩ := run_wasted_messages lw_addr_prettystring cfg senderclient
      blasted subchannel data variant now env hdrop 6 g r htracked (by omega)
    have hyes : rk.wastedServerMessages > 5 := by omega
    rw [OnServerMessage_dropped lw_addr_prettystring _ senderclient blasted subchannel data
      variant now env rk a1 hdrop, if_pos hyes]
  · intro henv
    obtain ⟨rk, a1, a2, a3⟩ := run_wasted_messages lw_addr_prettystring cfg senderclient
      blasted subchannel data variant now env hdrop 6 g r htracked (by omega)
    have hyes : rk.wastedServerMessages > 5 := by omega
    rw [OnServerMessage_dropped lw_addr_prettystring _ senderclient blasted subchannel data
      variant now env rk a1 hdrop, if_pos hyes]
    simp only
    rw [client_disconnect_banIPList _ _ _ _ henv]
    simp only [a3]
  · intro habsent
    exact record_ban_absent _ _ _ _ _ habsent

/-- C12 as the code has it, for the client connected from 10.0.0.7 sending
messages on subchannel 2: the sixth message only counts, the seventh creates
the ban entry expiring 3600 seconds later and disconnects. -/
theorem C12_ban_on_seventh_wasted_message_witness :
    (OnServerMessage id
        (run id uncapped visitor_connected
          (List.replicate 5 (Call.server_message visitor false 2 [1, 2, 3] 0 20
            handler_skipped)))
        visitor false 2 [1, 2, 3] 0 20 handler_skipped).2 =
      [Effect.dropped_server_message "10.0.0.7"] ∧
    (OnServerMessage id
        (run id uncapped visitor_connected
          (List.replicate 6 (Call.server_message visitor false 2 [1, 2, 3] 0 20
            handler_skipped)))
        visitor false 2 [1, 2, 3] 0 20 handler_skipped).1.banIPList =
      [{ ip := "10.0.0.7", disconnects := 1,
         reason := "Sending too many messages the server is not meant to handle.",
         resetAt := 3620 }] :=
  have h := C12_ban_on_seventh_wasted_message id uncapped visitor_connected visitor false 2
    [1, 2, 3] 0 20 handler_skipped (clientstats.new visitor) (by decide) (by decide)
    (by decide)
  ⟨(h.1 5 (by decide)).1, (h.2.2.1 (Or.inl rfl)).trans (by decide)⟩

/-- C12 as stated fails: the client connected from 10.0.0.7 has sent five
messages on subchannel 2; on the sixth one nothing but the drop happens: no
notice, no disconnect, and the ban list is still empty. -/
theorem C12_sixth_message_not_banned :
    (OnServerMessage id
        (run id uncapped visitor_connected
          (List.replicate 5 (Call.server_message visitor false 2 [1, 2, 3] 0 20
            handler_skipped)))
        visitor false 2 [1, 2, 3] 0 20 handler_skipped) =
      ({ (run id uncapped visitor_connected
            (List.replicate 6 (Call.server_message visitor false 2 [1, 2, 3] 0 20
              handler_skipped))) with banIPList := [] },
       [Effect.dropped_server_message "10.0.0.7"]) ∧
    (stats_of
        (run id uncapped visitor_connected
          (List.replicate 6 (Call.server_message visitor false 2 [1, 2, 3] 0 20
            handler_skipped))).clientdata visitor.ptr).map
      (fun r => r.wastedServerMessages) = some 6 := by
  decide

end Relay

namespace Relay

/-- C13 as the code has it: `OnServerMessage` accepts a message (prints it,
drops nothing and counts nothing against the client) if and only if the
message is not blasted, its variant is 0 and its subchannel is 0 or 5.  Every
other message, in particular every message with another subchannel, is dropped
and, for a tracked sender, raises `wastedServerMessages` by one. -/
theorem C13_server_message_accepted_iff (lw_addr_prettystring : String → String)
    (g : Globals) (senderclient : client) (blasted : Bool) (subchannel : Nat)
    (data : List Nat) (variant : Nat) (now : Int) (env : DisconnectEnv) :
    (((OnServerMessage lw_addr_prettystring g senderclient blasted subchannel data variant
          now env).2 = [Effect.message_from_client senderclient.id] ∧
      (OnServerMessage lw_addr_prettystring g senderclient blasted subchannel data variant
          now env).1.clientdata = g.clientdata ∧
      (OnServerMessage lw_addr_prettystring g senderclient blasted subchannel data variant
          now env).1.banIPList = g.banIPList)
      ↔ (blasted = false ∧ variant = 0 ∧ (subchannel = 0 ∨ subchannel = 5))) ∧
    (¬ (blasted = false ∧ variant = 0 ∧ (subchannel = 0 ∨ subchannel = 5)) →
      (∃ rest,
        (OnServerMessage lw_addr_prettystring g senderclient blasted subchannel data variant
            now env).2 =
          Effect.dropped_server_message (lw_addr_prettystring senderclient.address) ::
            rest) ∧
      ∀ r, stats_of g.clientdata senderclient.ptr = some r →
        (r.wastedServerMessages ≤ 5 ∨ env.handler_runs = false) →
        ∃ r1,
          stats_of
            (OnServerMessage lw_addr_prettystring g senderclient blasted subchannel data
              variant now env).1.clientdata senderclient.ptr = some r1 ∧
          r1.wastedServerMessages = to_size_t (r.wastedServerMessages + 1) ∧
          (r.wastedServerMessages + 1 < 18446744073709551616 →
            r1.wastedServerMessages = r.wastedServerMessages + 1)) := by
  have hcond : (blasted || variant != 0 || (subchannel != 0 && subchannel != 5)) = true ↔
      ¬ (blasted = false ∧ variant = 0 ∧ (subchannel = 0 ∨ subchannel = 5)) := by
    cases blasted <;> by_cases hv : variant = 0 <;> by_cases h0 : subchannel = 0 <;>
      by_cases h5 : subchannel = 5 <;> simp [hv, h0, h5]
  constructor
  · constructor
    · intro h
      by_contra hnot
      have hdrop := hcond.mpr hnot
      have h2 := h.1
      unfold OnServerMessage at h2
      simp only [hdrop, if_true] at h2
      split at h2
      · simp at h2
      · split_ifs at h2 <;> simp at h2
    · intro hacc
      have hdrop : ¬ ((blasted || variant != 0 || (subchannel != 0 && subchannel != 5)) =
          true) := fun h => hcond.mp h hacc
      unfold OnServerMessage
      simp only [hdrop, if_false]
      exact ⟨rfl, rfl, rfl⟩
  · intro hnot
    have hdrop := hcond.mpr hnot
    constructor
    · unfold OnServerMessage
      simp only [hdrop, if_true]
      split
      · exact ⟨_, rfl⟩
      · split_ifs
        · exact ⟨_, rfl⟩
        · exact ⟨_, rfl⟩
    · intro r hr hcase
      rw [OnServerMessage_dropped lw_addr_prettystring g senderclient blasted subchannel
        data variant now env r hr hdrop]
      refine ⟨{ r with
        totalBytesIn := to_size_t (r.totalBytesIn + data.length),
        totalNumMessagesIn := to_size_t (r.totalNumMessagesIn + 1),
        wastedServerMessages := to_size_t (r.wastedServerMessages + 1) }, ?_, rfl,
        fun hfit => to_size_t_of_fits _ hfit⟩
      by_cases hw : r.wastedServerMessages > 5
      · have hoff : env.handler_runs = false := by
          rcases hcase with h | h
          · omega
          · exact h
        rw [if_pos hw]
        simp only [client_disconnect, hoff, Bool.false_eq_true, if_false]
        exact stats_of_set_counted g.clientdata senderclient.ptr r _ hr rfl
      · rw [if_neg hw]
        exact stats_of_set_counted g.clientdata senderclient.ptr r _ hr rfl

/-- C13 as the code has it, on a message with subchannel 2 from the client
connected from 10.0.0.7: it is dropped and the client's count of wasted
messages goes from 0 to 1. -/
theorem C13_server_message_accepted_iff_witness :
    (∃ rest,
      (OnServerMessage id visitor_connected visitor false 2 [1, 2, 3] 0 20
          handler_skipped).2 = Effect.dropped_server_message "10.0.0.7" :: rest) ∧
    ∃ r1,
      stats_of
        (OnServerMessage id visitor_connected visitor false 2 [1, 2, 3] 0 20
          handler_skipped).1.clientdata visitor.ptr = some r1 ∧
      r1.wastedServerMessages = 1 :=
  have h := (C13_server_message_accepted_iff id visitor_connected visitor false 2 [1, 2, 3]
    0 20 handler_skipped).2 (by decide)
  ⟨h.1,
   match h.2 (clientstats.new visitor) (by decide) (Or.inl (by decide)) with
   | ⟨r1, a1, _, a3⟩ => ⟨r1, a1, a3 (by decide)⟩⟩

/-- C13 as stated fails: a blasted message with subchannel 0, and a message
with subchannel 5 and variant 1, are dropped and counted as wasted although
their subchannel is 0 or 5. -/
theorem C13_subchannel_zero_dropped_when_blasted :
    (OnServerMessage id visitor_connected visitor true 0 [1, 2, 3] 0 20
        handler_skipped).2 = [Effect.dropped_server_message "10.0.0.7"] ∧
    (stats_of
        (OnServerMessage id visitor_connected visitor true 0 [1, 2, 3] 0 20
          handler_skipped).1.clientdata visitor.ptr).map
      (fun r => r.wastedServerMessages) = some 1 ∧
    (OnServerMessage id visitor_connected visitor false 5 [1, 2, 3] 1 20
        handler_skipped).2 = [Effect.dropped_server_message "10.0.0.7"] := by
  decide

end Relay

/-! ## The per-client upload cap (C14) -/

namespace Relay

/-- `IncrementClient` for a tracked client, with the cap configured. -/
theorem IncrementClient_tracked (cfg : Config) (cap : Nat)
    (hcap : cfg.TCP_CLIENT_UPLOAD_CAP = some cap) (g : Globals) (cl : client) (size : Nat)
    (blasted : Bool) (r : clientstats) (htracked : stats_of g.clientdata cl.ptr = some r) :
    IncrementClient cfg g cl size blasted =
      if blasted = true then
        ({ g with
            clientdata := g.clientdata.set
              (g.clientdata.findIdx (fun b => b.c.ptr == cl.ptr))
              { r with
                totalBytesIn := to_size_t (r.totalBytesIn + size),
                totalNumMessagesIn := to_size_t (r.totalNumMessagesIn + 1) } }, true)
      else
        ({ g with
            clientdata := g.clientdata.set
              (g.clientdata.findIdx (fun b => b.c.ptr == cl.ptr))
              { r with
                totalBytesIn := to_size_t (r.totalBytesIn + size),
                totalNumMessagesIn := to_size_t (r.totalNumMessagesIn + 1),
                bytesIn := to_size_t (r.bytesIn + size),
                exceeded := r.exceeded || decide (to_size_t (r.bytesIn + size) > cap) } },
         !(r.exceeded || decide (to_size_t (r.bytesIn + size) > cap))) := by
  have h1 := getElem?_findIdx (fun b : clientstats => b.c.ptr == cl.ptr) g.clientdata
  unfold stats_of at htracked
  rw [htracked] at h1
  unfold IncrementClient
  simp only [h1, hcap]
  cases blasted <;> simp

/-- `IncrementClient` for a client without a record. -/
theorem IncrementClient_untracked (cfg : Config) (g : Globals) (cl : client) (size : Nat)
    (blasted : Bool) (h : stats_of g.clientdata cl.ptr = none) :
    IncrementClient cfg g cl size blasted = (g, true) := by
  have h1 := getElem?_findIdx (fun b : clientstats => b.c.ptr == cl.ptr) g.clientdata
  unfold stats_of at h
  rw [h] at h1
  unfold IncrementClient
  simp only [h1]

theorem mem_of_mem_erase_client (l : List clientstats) (cl : client) (y : clientstats)
    (h : y ∈ erase_client l cl) : y ∈ l := by
  unfold erase_client at h
  simp only at h
  split at h
  · exact h
  · exact List.mem_of_mem_eraseIdx h

/-- With the cap configured, every record left after a timer tick is a record
from before the tick with its window reset if it had not exceeded the cap. -/
theorem OnTimerTick_clientdata (lw_addr_prettystring : String → String) (cfg : Config)
    (cap : Nat) (hcap : cfg.TCP_CLIENT_UPLOAD_CAP = some cap)
    (g : Globals) (now : Int) (env : DisconnectEnv) :
    ∀ y ∈ (OnTimerTick lw_addr_prettystring cfg g now env).1.clientdata,
      ∃ x ∈ g.clientdata, y = reset_window x := by
  intro y hy
  unfold OnTimerTick at hy
  simp only [hcap] at hy
  have hmap : ∀ z, z ∈ (roll_counters g).clientdata.map reset_window →
      ∃ x ∈ g.clientdata, z = reset_window x := by
    intro z hz
    obtain ⟨x, hx, rfl⟩ := List.mem_map.mp hz
    exact ⟨x, hx, rfl⟩
  split at hy
  · exact hmap y hy
  · apply hmap
    have h1 := mem_of_mem_erase_client _ _ _ hy
    unfold client_disconnect OnDisconnect at h1
    split_ifs at h1
    · have h2 := mem_of_mem_erase_client _ _ _ h1
      rw [UpdateTitle_clientdata] at h2
      exact h2
    · have h2 := mem_of_mem_erase_client _ _ _ h1
      rw [UpdateTitle_clientdata] at h2
      exact h2
    · exact h1

/-- C14: with a per-client TCP upload cap configured, for a tracked client a
non-blasted `IncrementClient` adds the message size to the windowed `bytesIn`,
sets `exceeded` exactly when it was set already or the new `bytesIn` is
strictly greater than the cap, and returns true iff `exceeded` is false
afterwards; a blasted call leaves `bytesIn` and `exceeded` unchanged and
returns true.  A record with `exceeded` set keeps it through every
`IncrementClient` call, and every record left after a timer tick is a record
from before with the same `exceeded`, untouched if `exceeded` was set and with
its window zeroed otherwise. -/
theorem C14_upload_cap_latches (lw_addr_prettystring : String → String) (cfg : Config)
    (cap : Nat) (hcap : cfg.TCP_CLIENT_UPLOAD_CAP = some cap) (g : Globals) (cl : client)
    (size : Nat) (r : clientstats) (htracked : stats_of g.clientdata cl.ptr = some r) :
    (∃ r1, stats_of (IncrementClient cfg g cl size false).1.clientdata cl.ptr = some r1 ∧
      r1.bytesIn = to_size_t (r.bytesIn + size) ∧
      (r.bytesIn + size < 18446744073709551616 → r1.bytesIn = r.bytesIn + size) ∧
      (r1.exceeded = true ↔ (r.exceeded = true ∨ cap < r1.bytesIn)) ∧
      ((IncrementClient cfg g cl size false).2 = true ↔ r1.exceeded = false)) ∧
    (∃ r1, stats_of (IncrementClient cfg g cl size true).1.clientdata cl.ptr = some r1 ∧
      r1.bytesIn = r.bytesIn ∧ r1.exceeded = r.exceeded ∧
      (IncrementClient cfg g cl size true).2 = true) ∧
    (∀ (cl2 : client) (size2 : Nat) (blasted : Bool) (i : Nat) (x : clientstats),
      g.clientdata[i]? = some x → x.exceeded = true →
      ∃ y, (IncrementClient cfg g cl2 size2 blasted).1.clientdata[i]? = some y ∧
        y.c = x.c ∧ y.exceeded = true) ∧
    (∀ (now : Int) (env : DisconnectEnv),
      ∀ y ∈ (OnTimerTick lw_addr_prettystring cfg g now env).1.clientdata,
        ∃ x ∈ g.clientdata, y.c = x.c ∧ y.exceeded = x.exceeded ∧
          (x.exceeded = true → y = x) ∧
          (x.exceeded = false → y = { x with bytesIn := 0, numMessagesIn := 0 })) := by
  refine ⟨?_, ?_, ?_, ?_⟩
  · rw [IncrementClient_tracked cfg cap hcap g cl size false r htracked]
    simp only [Bool.false_eq_true, if_false]
    refine ⟨_, stats_of_set_counted g.clientdata cl.ptr r _ htracked rfl, rfl,
      fun hfit => to_size_t_of_fits _ hfit, ?_, ?_⟩
    · simp
    · simp
  · rw [IncrementClient_tracked cfg cap hcap g cl size true r htracked]
    simp only [if_true]
    exact ⟨_, stats_of_set_counted g.clientdata cl.ptr r _ htracked rfl, rfl, rfl,
      by first | rfl | trivial⟩
  · intro cl2 size2 blasted i x hx hex
    cases h2 : stats_of g.clientdata cl2.ptr with
    | none =>
      rw [IncrementClient_untracked cfg g cl2 size2 blasted h2]
      exact ⟨x, hx, rfl, hex⟩
    | some r2 =>
      have hidx := getElem?_findIdx (fun b : clientstats => b.c.ptr == cl2.ptr) g.clientdata
      have h2' := h2
      unfold stats_of at h2'
      rw [h2'] at hidx
      have hlt := findIdx_lt_of_stats g.clientdata cl2.ptr r2 h2
      rw [IncrementClient_tracked cfg cap hcap g cl2 size2 blasted r2 h2]
      by_cases hi : g.clientdata.findIdx (fun b => b.c.ptr == cl2.ptr) = i
      · have hxr : r2 = x := by
          rw [hi, hx] at hidx
          exact (Option.some.inj hidx).symm
        subst hxr
        cases blasted
        · simp only [Bool.false_eq_true, if_false]
          rw [List.getElem?_set, if_pos hi, if_pos hlt]
          exact ⟨_, rfl, rfl, by simp [hex]⟩
        · simp only [if_true]
          rw [List.getElem?_set, if_pos hi, if_pos hlt]
          exact ⟨_, rfl, rfl, hex⟩
      · cases blasted
        · simp only [Bool.false_eq_true, if_false]
          rw [List.getElem?_set, if_neg hi]
          exact ⟨x, hx, rfl, hex⟩
        · simp only [if_true]
          rw [List.getElem?_set, if_neg hi]
          exact ⟨x, hx, rfl, hex⟩
  · intro now env y hy
    obtain ⟨x, hx, rfl⟩ := OnTimerTick_clientdata lw_addr_prettystring cfg cap hcap g now
      env y hy
    refine ⟨x, hx, ?_, ?_, ?_, ?_⟩
    · unfold reset_window
      split_ifs <;> rfl
    · unfold reset_window
      split_ifs <;> rfl
    · intro hex
      unfold reset_window
      simp [hex]
    · intro hex
      unfold reset_window
      simp [hex]

/-- C14 for the client connected from 10.0.0.7 with a cap of 3000: a TCP
message of 4000 bytes sets `exceeded` and makes `IncrementClient` return
false. -/
theorem C14_upload_cap_latches_witness :
    ∃ r1, stats_of (IncrementClient capped visitor_connected visitor 4000 false).1.clientdata
        visitor.ptr = some r1 ∧
      r1.bytesIn = 4000 ∧ r1.exceeded = true ∧
      (IncrementClient capped visitor_connected visitor 4000 false).2 = false :=
  match (C14_upload_cap_latches id capped 3000 rfl visitor_connected visitor 4000
    (clientstats.new visitor) (by decide)).1 with
  | ⟨r1, a1, a2, _, a4, a5⟩ =>
    have hb : r1.bytesIn = 4000 := a2.trans (by decide)
    have he : r1.exceeded = true := a4.mpr (Or.inr (by rw [hb]; decide))
    ⟨r1, a1, hb, he, by
      cases hres : (IncrementClient capped visitor_connected visitor 4000 false).2
      · rfl
      · have := a5.mp hres
        rw [he] at this
        cases this⟩

end Relay

/-! ## The ban entry of the upload cap (C15) -/

namespace Relay

/-- The globals `first_exceeded` are those reached from program start when
`first_mapped` connects and sends one TCP peer message of 4000 bytes, which the
cap of 3000 turns down. -/
theorem first_exceeded_reached :
    run shorten_mapped capped Globals.start
      [Call.connect_request first_mapped 10 10 1 0,
       Call.peer_message first_mapped false upload_4000] = first_exceeded ∧
    (OnPeerMessage capped
      (run shorten_mapped capped Globals.start [Call.connect_request first_mapped 10 10 1 0])
      first_mapped false upload_4000).2 = false := by
  have hlen : upload_4000.length = 4000 := by
    unfold upload_4000
    exact List.length_replicate 4000 0
  have hconn : run shorten_mapped capped Globals.start
      [Call.connect_request first_mapped 10 10 1 0] =
      { Globals.start with clientdata := [clientstats.new first_mapped], maxClients := 1 } := by
    decide
  have hpeer : OnPeerMessage capped
      { Globals.start with clientdata := [clientstats.new first_mapped], maxClients := 1 }
      first_mapped false upload_4000 = (first_exceeded, false) := by
    unfold OnPeerMessage IncrementClient
    rw [hlen]
    decide
  constructor
  · show (OnPeerMessage capped
        (run shorten_mapped capped Globals.start
          [Call.connect_request first_mapped 10 10 1 0])
        first_mapped false upload_4000).1 = first_exceeded
    rw [hconn, hpeer]
  · rw [hconn, hpeer]

/-- Whatever the formatter is: when the first client with `exceeded` set has an
address text that the formatter changes and the ban list is empty, the entry
the timer tick creates carries the unformatted text and the search by the
formatted text does not find it. -/
theorem OnTimerTick_keys_unformatted (lw_addr_prettystring : String → String)
    (cfg : Config) (cap : Nat) (hcap : cfg.TCP_CLIENT_UPLOAD_CAP = some cap) (g : Globals)
    (now : Int) (env : DisconnectEnv) (c : clientstats)
    (hc : (g.clientdata.map reset_window).find? (fun c => c.exceeded) = some c)
    (hempty : g.banIPList = [])
    (hne : lw_addr_prettystring c.c.address ≠ c.c.address)
    (henv : env.handler_runs = false ∨ env.istrusted = true) :
    (OnTimerTick lw_addr_prettystring cfg g now env).1.banIPList =
      [{ ip := c.c.address, disconnects := 1,
         reason :=
           "You have been banned for heavy TCP usage. Contact Phi on Clickteam Discord.",
         resetAt := now + 60 }] ∧
    (OnTimerTick lw_addr_prettystring cfg g now env).1.banIPList.find?
      (fun b => b.ip == lw_addr_prettystring c.c.address) = none := by
  have hc' : ((roll_counters g).clientdata.map reset_window).find? (fun c => c.exceeded) =
      some c := hc
  have hb : (OnTimerTick lw_addr_prettystring cfg g now env).1.banIPList =
      [{ ip := c.c.address, disconnects := 1,
         reason :=
           "You have been banned for heavy TCP usage. Contact Phi on Clickteam Discord.",
         resetAt := now + 60 }] := by
    unfold OnTimerTick
    simp only [hcap, hc']
    rw [client_disconnect_banIPList _ _ _ _ henv]
    show record_ban g.banIPList _ _ _ _ = _
    rw [hempty]
    rfl
  refine ⟨hb, ?_⟩
  rw [hb]
  simp only [List.find?_cons, List.find?_nil]
  have : (c.c.address == lw_addr_prettystring c.c.address) = false := by
    simp only [beq_eq_false_iff_ne, ne_eq]
    exact fun h => hne h.symm
  rw [this]

/-- C15, the code at the failing input: a client whose address text is the
IPv4-mapped form of 10.0.0.7, which `lw_addr_prettystring` shortens to
10.0.0.7, has exceeded the cap and the ban list is empty.  The tick sends the
two notices, calls `disconnect ()`, removes the client from `clientdata` and
creates an entry with count 1 and `resetAt = now + 60`, but the entry is keyed
by the unformatted text: the search by the formatted text, as
`OnConnectRequest` and every other ban lookup do it, does not find it, and the
next connection from the address is treated as never banned.  `OnDisconnect`
keys its entry by the formatted text. -/
theorem C15_ban_entry_keyed_by_unformatted_address :
    (stats_of first_exceeded.clientdata first_mapped.ptr).map (fun r => r.exceeded) =
      some true ∧
    first_exceeded.banIPList = [] ∧
    (OnTimerTick shorten_mapped capped first_exceeded 100 handler_runs).2 =
      [Effect.send 1 1 Notice.exceeded_upload_limit,
       Effect.send 1 0 Notice.exceeded_upload_limit, Effect.disconnect 1] ∧
    (OnTimerTick shorten_mapped capped first_exceeded 100 handler_runs).1.clientdata = [] ∧
    (OnTimerTick shorten_mapped capped first_exceeded 100 handler_skipped).1.clientdata = [] ∧
    (OnTimerTick shorten_mapped capped first_exceeded 100 handler_runs).1.banIPList =
      [{ ip := "[::ffff:10.0.0.7]", disconnects := 1,
         reason :=
           "You have been banned for heavy TCP usage. Contact Phi on Clickteam Discord.",
         resetAt := 160 }] ∧
    shorten_mapped first_mapped.address = "10.0.0.7" ∧
    (OnTimerTick shorten_mapped capped first_exceeded 100 handler_runs).1.banIPList.find?
      (fun b => b.ip == shorten_mapped first_mapped.address) = none ∧
    (OnDisconnect shorten_mapped first_exceeded first_mapped false 100 0 0).banIPList =
      [{ ip := "10.0.0.7", disconnects := 1, reason := "Broken Lacewing protocol",
         resetAt := 1900 }] := by
  decide

end Relay

/-! ## Bookkeeping on disconnect (C16) -/

namespace Relay

theorem erase_client_eq (l : List clientstats) (cl : client) :
    erase_client l cl = l.eraseIdx (l.findIdx (fun c => c.c.ptr == cl.ptr)) := by
  unfold erase_client
  simp only
  split
  · rename_i h
    rw [List.eraseIdx_of_length_le]
    exact List.getElem?_eq_none_iff.mp h
  · rfl

/-- With one record per client, no record of the client is left after
`erase_client`. -/
theorem stats_of_erase_client (l : List clientstats) (cl : client)
    (hnd : (l.map (fun c => c.c.ptr)).Nodup) :
    stats_of (erase_client l cl) cl.ptr = none := by
  have hidx := getElem?_findIdx (fun b : clientstats => b.c.ptr == cl.ptr) l
  unfold stats_of
  cases hf : l.find? (fun b => b.c.ptr == cl.ptr) with
  | none =>
    rw [hf] at hidx
    unfold erase_client
    simp only [hidx]
    exact hf
  | some y =>
    rw [hf] at hidx
    have hy : y.c.ptr = cl.ptr := ptr_of_stats l cl.ptr y hf
    unfold erase_client
    simp only [hidx]
    rw [List.find?_eq_none]
    intro z hz
    have := key_gone_of_eraseIdx (fun c : clientstats => c.c.ptr) l _ y hnd hidx z hz
    simp only [beq_iff_eq]
    rw [← hy]
    exact this

/-- C16: `OnDisconnect` removes the record of the client from `clientdata` in
every case.  For a client whose trusted flag is false: if the ban list has no
entry for the client's IP, one entry is appended with count 1, reason "Broken
Lacewing protocol" and `resetAt = now + 30` minutes; if there is an entry, its
count is raised by one and nothing else in the list changes.  For a trusted
client the ban list is unchanged. -/
theorem C16_disconnect_bookkeeping (lw_addr_prettystring : String → String) (g : Globals)
    (cl : client) (istrusted : Bool) (now : Int) (clientCount channelCount : Nat) :
    (OnDisconnect lw_addr_prettystring g cl istrusted now clientCount
        channelCount).clientdata =
      g.clientdata.eraseIdx (g.clientdata.findIdx (fun c => c.c.ptr == cl.ptr)) ∧
    ((g.clientdata.map (fun c => c.c.ptr)).Nodup →
      stats_of
        (OnDisconnect lw_addr_prettystring g cl istrusted now clientCount
          channelCount).clientdata cl.ptr = none) ∧
    (istrusted = true →
      (OnDisconnect lw_addr_prettystring g cl istrusted now clientCount
          channelCount).banIPList = g.banIPList) ∧
    (istrusted = false →
      g.banIPList.find? (fun b => b.ip == lw_addr_prettystring cl.address) = none →
      (OnDisconnect lw_addr_prettystring g cl istrusted now clientCount
          channelCount).banIPList =
        g.banIPList ++
          [{ ip := lw_addr_prettystring cl.address, disconnects := 1,
             reason := "Broken Lacewing protocol", resetAt := now + 30 * 60 }]) ∧
    (istrusted = false → ∀ b : BanEntry,
      g.banIPList.find? (fun b => b.ip == lw_addr_prettystring cl.address) = some b →
      -2147483648 ≤ b.disconnects → b.disconnects < 2147483647 →
      (OnDisconnect lw_addr_prettystring g cl istrusted now clientCount
          channelCount).banIPList =
        g.banIPList.set
          (g.banIPList.findIdx (fun b => b.ip == lw_addr_prettystring cl.address))
          { b with disconnects := b.disconnects + 1 }) := by
  have hcd : (OnDisconnect lw_addr_prettystring g cl istrusted now clientCount
      channelCount).clientdata = erase_client g.clientdata cl := by
    unfold OnDisconnect
    simp only
    split_ifs <;> simp only [UpdateTitle_clientdata]
  refine ⟨?_, ?_, ?_, ?_, ?_⟩
  · rw [hcd, erase_client_eq]
  · intro hnd
    rw [hcd]
    exact stats_of_erase_client g.clientdata cl hnd
  · intro ht
    unfold OnDisconnect
    simp [ht, UpdateTitle_banIPList]
  · intro ht habsent
    unfold OnDisconnect
    simp only [ht, Bool.not_false, if_true, UpdateTitle_banIPList]
    exact record_ban_absent _ _ _ _ _ habsent
  · intro ht b hb h1 h2
    unfold OnDisconnect
    simp only [ht, Bool.not_false, if_true, UpdateTitle_banIPList]
    rw [record_ban_present _ _ _ _ _ b hb, to_int_of_fits _ (by omega) (by omega)]

/-- C16 for the client connected from 10.0.0.7 when it is not trusted and the
ban list is empty: its record is removed and the entry for 10.0.0.7 is created
with count 1, expiring 1800 seconds later; with the entry of `banned_once` in
place its count goes from 4 to 5; for a trusted client the list stays. -/
theorem C16_disconnect_bookkeeping_witness :
    (OnDisconnect id visitor_connected visitor false 100 0 0).clientdata = [] ∧
    (OnDisconnect id visitor_connected visitor false 100 0 0).banIPList =
      [{ ip := "10.0.0.7", disconnects := 1, reason := "Broken Lacewing protocol",
         resetAt := 1900 }] ∧
    (OnDisconnect id banned_once visitor false 100 0 0).banIPList =
      [{ ip := "10.0.0.7", disconnects := 5, reason := "Broken Lacewing protocol",
         resetAt := 1000 }] ∧
    (OnDisconnect id banned_once visitor true 100 0 0).banIPList = banned_once.banIPList :=
  have h := C16_disconnect_bookkeeping id visitor_connected visitor false 100 0 0
  have h2 := C16_disconnect_bookkeeping id banned_once visitor false 100 0 0
  ⟨h.1.trans (by decide), (h.2.2.2.1 rfl (by decide)).trans (by decide),
   (h2.2.2.2.2 rfl
      { ip := "10.0.0.7", disconnects := 4, reason := "Broken Lacewing protocol",
        resetAt := 1000 }
      (by decide) (by decide) (by decide)).trans (by decide),
   (C16_disconnect_bookkeeping id banned_once visitor true 100 0 0).2.2.1 rfl⟩

end Relay

/-! ## Monotone per-client totals (C17) -/

namespace Relay

/-- Overwriting the record of a client with one for the same client leaves the
records of the other clients as they are found. -/
theorem stats_of_set_other (l : List clientstats) (s p : Nat) (rs x : clientstats)
    (hs : stats_of l s = some rs) (hx : x.c = rs.c) (hne : p ≠ s) :
    stats_of (l.set (l.findIdx (fun b => b.c.ptr == s)) x) p = stats_of l p := by
  have hidx := getElem?_findIdx (fun b : clientstats => b.c.ptr == s) l
  have hs' := hs
  unfold stats_of at hs'
  rw [hs'] at hidx
  have hptr := ptr_of_stats l s rs hs
  unfold stats_of
  apply find?_set_other (fun b : clientstats => b.c.ptr == p) x _ l _ rs hidx
  · simp only [beq_eq_false_iff_ne, ne_eq]
    rw [hptr]
    exact fun h => hne h.symm
  · simp only [beq_eq_false_iff_ne, ne_eq]
    rw [hx, hptr]
    exact fun h => hne h.symm

theorem map_ptr_set (l : List clientstats) (s : Nat) (rs x : clientstats)
    (hs : stats_of l s = some rs) (hx : x.c = rs.c) :
    (l.set (l.findIdx (fun b => b.c.ptr == s)) x).map (fun c => c.c.ptr) =
      l.map (fun c => c.c.ptr) := by
  have hidx := getElem?_findIdx (fun b : clientstats => b.c.ptr == s) l
  unfold stats_of at hs
  rw [hs] at hidx
  apply List.ext_getElem?
  intro i
  simp only [List.getElem?_map, List.getElem?_set]
  by_cases hi : l.findIdx (fun b => b.c.ptr == s) = i
  · subst hi
    have hlt : l.findIdx (fun b => b.c.ptr == s) < l.length := by
      by_contra hge
      rw [List.getElem?_eq_none (Nat.le_of_not_lt hge)] at hidx
      cases hidx
    rw [if_pos rfl, if_pos hlt, hidx]
    simp [hx]
  · rw [if_neg hi]

theorem nodup_erase_client (l : List clientstats) (cl : client)
    (hnd : (l.map (fun c => c.c.ptr)).Nodup) :
    ((erase_client l cl).map (fun c => c.c.ptr)).Nodup := by
  rw [erase_client_eq]
  exact List.Nodup.sublist (List.Sublist.map _ (List.eraseIdx_sublist l _)) hnd

/-- With one record per client, a record found after `erase_client` was found
before. -/
theorem stats_of_erase_client_some (l : List clientstats) (cl : client) (p : Nat)
    (r1 : clientstats) (hnd : (l.map (fun c => c.c.ptr)).Nodup)
    (h : stats_of (erase_client l cl) p = some r1) : stats_of l p = some r1 := by
  by_cases hp : p = cl.ptr
  · subst hp
    rw [stats_of_erase_client l cl hnd] at h
    cases h
  · have hidx := getElem?_findIdx (fun b : clientstats => b.c.ptr == cl.ptr) l
    cases hf : l.find? (fun b => b.c.ptr == cl.ptr) with
    | none =>
      rw [hf] at hidx
      unfold erase_client at h
      simp only [hidx] at h
      exact h
    | some y =>
      rw [hf] at hidx
      have hy : y.c.ptr = cl.ptr := ptr_of_stats l cl.ptr y hf
      unfold erase_client at h
      simp only [hidx] at h
      unfold stats_of at h ⊢
      rw [find?_eraseIdx_other (fun b : clientstats => b.c.ptr == p) l _ y hidx
        (by
          simp only [beq_eq_false_iff_ne, ne_eq]
          rw [hy]
          exact fun h => hp h.symm)] at h
      exact h

theorem stats_of_map_reset_window (l : List clientstats) (p : Nat) :
    stats_of (l.map reset_window) p = (stats_of l p).map reset_window := by
  unfold stats_of
  induction l with
  | nil => rfl
  | cons a l ih =>
    have hc : (reset_window a).c = a.c := by
      unfold reset_window
      split_ifs <;> rfl
    simp only [List.map_cons, List.find?_cons, hc]
    cases a.c.ptr == p
    · exact ih
    · rfl

theorem map_ptr_map_reset_window (l : List clientstats) :
    (l.map reset_window).map (fun c => c.c.ptr) = l.map (fun c => c.c.ptr) := by
  rw [List.map_map]
  apply List.map_congr_left
  intro a _
  show (reset_window a).c.ptr = a.c.ptr
  unfold reset_window
  split_ifs <;> rfl

/-- What `IncrementClient` does to `clientdata`: nothing for a client without
a record, otherwise the record of the client is overwritten with one for the
same client whose totals are the old ones plus the size and plus one. -/
theorem IncrementClient_clientdata (cfg : Config) (g : Globals) (cl : client) (size : Nat)
    (blasted : Bool) :
    (stats_of g.clientdata cl.ptr = none ∧
      (IncrementClient cfg g cl size blasted).1.clientdata = g.clientdata) ∨
    ∃ rs x, stats_of g.clientdata cl.ptr = some rs ∧ x.c = rs.c ∧
      x.totalBytesIn = to_size_t (rs.totalBytesIn + size) ∧
      x.totalNumMessagesIn = to_size_t (rs.totalNumMessagesIn + 1) ∧
      (IncrementClient cfg g cl size blasted).1.clientdata =
        g.clientdata.set (g.clientdata.findIdx (fun b => b.c.ptr == cl.ptr)) x := by
  have hidx := getElem?_findIdx (fun b : clientstats => b.c.ptr == cl.ptr) g.clientdata
  cases hf : stats_of g.clientdata cl.ptr with
  | none =>
    left
    rw [IncrementClient_untracked cfg g cl size blasted hf]
    exact ⟨rfl, rfl⟩
  | some rs =>
    right
    have hf' := hf
    unfold stats_of at hf'
    rw [hf'] at hidx
    unfold IncrementClient
    simp only [hidx]
    cases hc : cfg.TCP_CLIENT_UPLOAD_CAP with
    | none =>
      exact ⟨rs,
        { rs with
          totalBytesIn := to_size_t (rs.totalBytesIn + size),
          totalNumMessagesIn := to_size_t (rs.totalNumMessagesIn + 1) },
        rfl, rfl, rfl, rfl, rfl⟩
    | some cap =>
      cases blasted
      · exact ⟨rs,
          { rs with
            totalBytesIn := to_size_t (rs.totalBytesIn + size),
            totalNumMessagesIn := to_size_t (rs.totalNumMessagesIn + 1),
            bytesIn := to_size_t (rs.bytesIn + size),
            exceeded := rs.exceeded || decide (to_size_t (rs.bytesIn + size) > cap) },
          rfl, rfl, rfl, rfl, rfl⟩
      · exact ⟨rs,
          { rs with
            totalBytesIn := to_size_t (rs.totalBytesIn + size),
            totalNumMessagesIn := to_size_t (rs.totalNumMessagesIn + 1) },
          rfl, rfl, rfl, rfl, rfl⟩

/-- Totals found after a record of some client was overwritten by a grown
record are at least the totals found before. -/
theorem totals_after_set (l : List clientstats) (s p : Nat) (rs x r r1 : clientstats)
    (hs : stats_of l s = some rs) (hx : x.c = rs.c) (hr : stats_of l p = some r)
    (hgrow : p = s → r.totalBytesIn ≤ x.totalBytesIn ∧
      r.totalNumMessagesIn ≤ x.totalNumMessagesIn)
    (h1 : stats_of (l.set (l.findIdx (fun b => b.c.ptr == s)) x) p = some r1) :
    r.totalBytesIn ≤ r1.totalBytesIn ∧ r.totalNumMessagesIn ≤ r1.totalNumMessagesIn := by
  by_cases hp : p = s
  · subst hp
    rw [stats_of_set_counted l p rs x hs hx] at h1
    cases h1
    exact hgrow rfl
  · rw [stats_of_set_other l s p rs x hs hx hp, hr] at h1
    cases h1
    exact ⟨le_refl _, le_refl _⟩

end Relay

namespace Relay

theorem client_disconnect_clientdata (lw_addr_prettystring : String → String) (g : Globals)
    (cl : client) (env : DisconnectEnv) :
    (client_disconnect lw_addr_prettystring g cl env).clientdata = g.clientdata ∨
    (client_disconnect lw_addr_prettystring g cl env).clientdata =
      erase_client g.clientdata cl := by
  unfold client_disconnect OnDisconnect
  split_ifs
  · right; simp only [UpdateTitle_clientdata]
  · right; simp only [UpdateTitle_clientdata]
  · left; rfl

/-- With one record per client, a record found after a call of `disconnect ()`
was found before, and there is still one record per client. -/
theorem stats_of_client_disconnect (lw_addr_prettystring : String → String) (g : Globals)
    (cl : client) (env : DisconnectEnv) (hnd : (g.clientdata.map (fun c => c.c.ptr)).Nodup) :
    ((client_disconnect lw_addr_prettystring g cl env).clientdata.map
      (fun c => c.c.ptr)).Nodup ∧
    ∀ p r1, stats_of (client_disconnect lw_addr_prettystring g cl env).clientdata p = some r1 →
      stats_of g.clientdata p = some r1 := by
  rcases client_disconnect_clientdata lw_addr_prettystring g cl env with h | h
  · rw [h]
    exact ⟨hnd, fun _ _ h1 => h1⟩
  · rw [h]
    exact ⟨nodup_erase_client _ _ hnd,
      fun p r1 h1 => stats_of_erase_client_some _ _ p r1 hnd h1⟩

/-- `IncrementClient` does not lower the totals of any client, as long as they
do not overflow. -/
theorem totals_IncrementClient (cfg : Config) (g : Globals) (cl : client) (size : Nat)
    (blasted : Bool) (p : Nat) (r r1 : clientstats)
    (hr : stats_of g.clientdata p = some r)
    (hfit1 : r.totalBytesIn + size < 18446744073709551616)
    (hfit2 : r.totalNumMessagesIn + 1 < 18446744073709551616)
    (h1 : stats_of (IncrementClient cfg g cl size blasted).1.clientdata p = some r1) :
    r.totalBytesIn ≤ r1.totalBytesIn ∧ r.totalNumMessagesIn ≤ r1.totalNumMessagesIn := by
  rcases IncrementClient_clientdata cfg g cl size blasted with ⟨_, h⟩ | ⟨rs, x, hs, hx, a1, a2, h⟩
  · rw [h, hr] at h1
    cases h1
    exact ⟨le_refl _, le_refl _⟩
  · rw [h] at h1
    apply totals_after_set g.clientdata cl.ptr p rs x r r1 hs hx hr _ h1
    intro hp
    subst hp
    rw [hr] at hs
    cases hs
    rw [a1, a2, to_size_t_of_fits _ hfit1, to_size_t_of_fits _ hfit2]
    omega

theorem OnPeerMessage_clientdata (cfg : Config) (g : Globals) (senderclient : client)
    (blasted : Bool) (data : List Nat) :
    (OnPeerMessage cfg g senderclient blasted data).1.clientdata = g.clientdata ∨
    (OnPeerMessage cfg g senderclient blasted data).1.clientdata =
      (IncrementClient cfg
        { g with
          numMessagesIn := to_size_t (g.numMessagesIn + 1),
          bytesIn := to_size_t (g.bytesIn + data.length) }
        senderclient data.length blasted).1.clientdata := by
  unfold OnPeerMessage
  simp only
  split
  · left; rfl
  · right
    split
    · rename_i h
      rw [h]
    · rename_i h
      rw [h]

theorem OnChannelMessage_clientdata (cfg : Config) (g : Globals) (senderclient : client)
    (channel_clientcount : Nat) (blasted : Bool) (data : List Nat) :
    (OnChannelMessage cfg g senderclient channel_clientcount blasted data).1.clientdata =
      g.clientdata ∨
    (OnChannelMessage cfg g senderclient channel_clientcount blasted data).1.clientdata =
      (IncrementClient cfg
        { g with
          numMessagesIn := to_size_t (g.numMessagesIn + 1),
          bytesIn := to_size_t (g.bytesIn + data.length) }
        senderclient data.length blasted).1.clientdata := by
  unfold OnChannelMessage
  simp only
  split
  · left; rfl
  · right
    split
    · rename_i h
      rw [h]
    · rename_i h
      rw [h]

/-- `OnServerMessage` does not lower the totals of any client that is tracked
before and after. -/
theorem totals_OnServerMessage (lw_addr_prettystring : String → String) (g : Globals)
    (senderclient : client) (blasted : Bool) (subchannel : Nat) (data : List Nat)
    (variant : Nat) (now : Int) (env : DisconnectEnv) (p : Nat) (r r1 : clientstats)
    (hnd : (g.clientdata.map (fun c => c.c.ptr)).Nodup)
    (hr : stats_of g.clientdata p = some r)
    (hfit1 : r.totalBytesIn + data.length < 18446744073709551616)
    (hfit2 : r.totalNumMessagesIn + 1 < 18446744073709551616)
    (h1 : stats_of
      (OnServerMessage lw_addr_prettystring g senderclient blasted subchannel data variant
        now env).1.clientdata p = some r1) :
    r.totalBytesIn ≤ r1.totalBytesIn ∧ r.totalNumMessagesIn ≤ r1.totalNumMessagesIn := by
  by_cases hdrop : (blasted || variant != 0 || (subchannel != 0 && subchannel != 5)) = true
  · cases hs : stats_of g.clientdata senderclient.ptr with
    | none =>
      have hidx := getElem?_findIdx (fun b : clientstats => b.c.ptr == senderclient.ptr)
        g.clientdata
      unfold stats_of at hs
      rw [hs] at hidx
      unfold OnServerMessage at h1
      simp only [hdrop, if_true, hidx] at h1
      rw [hr] at h1
      cases h1
      exact ⟨le_refl _, le_refl _⟩
    | some rs =>
      rw [OnServerMessage_dropped lw_addr_prettystring g senderclient blasted subchannel
        data variant now env rs hs hdrop] at h1
      have hgrow : p = senderclient.ptr →
          r.totalBytesIn ≤ to_size_t (rs.totalBytesIn + data.length) ∧
          r.totalNumMessagesIn ≤ to_size_t (rs.totalNumMessagesIn + 1) := by
        intro hp
        subst hp
        rw [hr] at hs
        cases hs
        rw [to_size_t_of_fits _ hfit1, to_size_t_of_fits _ hfit2]
        omega
      by_cases hw : rs.wastedServerMessages > 5
      · rw [if_pos hw] at h1
        have h2 := (stats_of_client_disconnect lw_addr_prettystring _ senderclient env
          (by
            show ((g.clientdata.set _ _).map (fun c => c.c.ptr)).Nodup
            rw [map_ptr_set g.clientdata senderclient.ptr rs
              { rs with
            totalBytesIn := to_size_t (rs.totalBytesIn + data.length),
            totalNumMessagesIn := to_size_t (rs.totalNumMessagesIn + 1),
            wastedServerMessages := to_size_t (rs.wastedServerMessages + 1) } hs rfl]
            exact hnd)).2 p r1 h1
        exact totals_after_set g.clientdata senderclient.ptr p rs
          { rs with
            totalBytesIn := to_size_t (rs.totalBytesIn + data.length),
            totalNumMessagesIn := to_size_t (rs.totalNumMessagesIn + 1),
            wastedServerMessages := to_size_t (rs.wastedServerMessages + 1) } r r1 hs rfl hr hgrow h2
      · rw [if_neg hw] at h1
        exact totals_after_set g.clientdata senderclient.ptr p rs
          { rs with
            totalBytesIn := to_size_t (rs.totalBytesIn + data.length),
            totalNumMessagesIn := to_size_t (rs.totalNumMessagesIn + 1),
            wastedServerMessages := to_size_t (rs.wastedServerMessages + 1) } r r1 hs rfl hr hgrow h1
  · unfold OnServerMessage at h1
    simp only at h1
    rw [if_neg hdrop] at h1
    have h2 : stats_of g.clientdata p = some r1 := h1
    rw [hr] at h2
    cases h2
    exact ⟨le_refl _, le_refl _⟩

/-- `OnTimerTick` does not change the totals of any client that is tracked
before and after. -/
theorem totals_OnTimerTick (lw_addr_prettystring : String → String) (cfg : Config)
    (g : Globals) (now : Int) (env : DisconnectEnv) (p : Nat) (r r1 : clientstats)
    (hnd : (g.clientdata.map (fun c => c.c.ptr)).Nodup)
    (hr : stats_of g.clientdata p = some r)
    (h1 : stats_of (OnTimerTick lw_addr_prettystring cfg g now env).1.clientdata p =
      some r1) :
    r.totalBytesIn ≤ r1.totalBytesIn ∧ r.totalNumMessagesIn ≤ r1.totalNumMessagesIn := by
  have hreset : ∀ r2, stats_of (g.clientdata.map reset_window) p = some r2 →
      r.totalBytesIn ≤ r2.totalBytesIn ∧ r.totalNumMessagesIn ≤ r2.totalNumMessagesIn := by
    intro r2 h2
    rw [stats_of_map_reset_window, hr] at h2
    simp only [Option.map_some', Option.some.injEq] at h2
    subst h2
    unfold reset_window
    split_ifs <;> exact ⟨le_refl _, le_refl _⟩
  have hnd1 : ((g.clientdata.map reset_window).map (fun c => c.c.ptr)).Nodup := by
    rw [map_ptr_map_reset_window]
    exact hnd
  unfold OnTimerTick at h1
  cases hc : cfg.TCP_CLIENT_UPLOAD_CAP with
  | none =>
    simp only [hc] at h1
    have h2 : stats_of g.clientdata p = some r1 := h1
    rw [hr] at h2
    cases h2
    exact ⟨le_refl _, le_refl _⟩
  | some cap =>
    simp only [hc] at h1
    split at h1
    · exact hreset r1 h1
    · rename_i c _
      have hd := stats_of_client_disconnect lw_addr_prettystring
        { roll_counters g with
          clientdata := (roll_counters g).clientdata.map reset_window,
          banIPList := record_ban (roll_counters g).banIPList
            (lw_addr_prettystring c.c.address) c.c.address
            "You have been banned for heavy TCP usage. Contact Phi on Clickteam Discord."
            (now + 60) }
        c.c env hnd1
      have h2 := stats_of_erase_client_some _ c.c p r1 hd.1 h1
      exact hreset r1 (hd.2 p r1 h2)

end Relay

namespace Relay

/-- C17: for every call of `OnServerMessage`, `OnChannelMessage`,
`OnPeerMessage`, `IncrementClient` or `OnTimerTick` and every client with a
record in `clientdata` before and after the call, the `totalBytesIn` and
`totalNumMessagesIn` of the client afterwards are at least their values before,
as long as adding the message to the totals does not overflow `size_t`.
`clientdata` holds one record per client. -/
theorem C17_totals_non_decreasing (lw_addr_prettystring : String → String) (cfg : Config)
    (g : Globals) (p : Nat) (r : clientstats)
    (hnd : (g.clientdata.map (fun c => c.c.ptr)).Nodup)
    (hr : stats_of g.clientdata p = some r) :
    (∀ (senderclient : client) (blasted : Bool) (subchannel : Nat) (data : List Nat)
        (variant : Nat) (now : Int) (env : DisconnectEnv) (r1 : clientstats),
      r.totalBytesIn + data.length < 18446744073709551616 →
      r.totalNumMessagesIn + 1 < 18446744073709551616 →
      stats_of
        (OnServerMessage lw_addr_prettystring g senderclient blasted subchannel data variant
          now env).1.clientdata p = some r1 →
      r.totalBytesIn ≤ r1.totalBytesIn ∧ r.totalNumMessagesIn ≤ r1.totalNumMessagesIn) ∧
    (∀ (senderclient : client) (channel_clientcount : Nat) (blasted : Bool)
        (data : List Nat) (r1 : clientstats),
      r.totalBytesIn + data.length < 18446744073709551616 →
      r.totalNumMessagesIn + 1 < 18446744073709551616 →
      stats_of
        (OnChannelMessage cfg g senderclient channel_clientcount blasted
          data).1.clientdata p = some r1 →
      r.totalBytesIn ≤ r1.totalBytesIn ∧ r.totalNumMessagesIn ≤ r1.totalNumMessagesIn) ∧
    (∀ (senderclient : client) (blasted : Bool) (data : List Nat) (r1 : clientstats),
      r.totalBytesIn + data.length < 18446744073709551616 →
      r.totalNumMessagesIn + 1 < 18446744073709551616 →
      stats_of (OnPeerMessage cfg g senderclient blasted data).1.clientdata p = some r1 →
      r.totalBytesIn ≤ r1.totalBytesIn ∧ r.totalNumMessagesIn ≤ r1.totalNumMessagesIn) ∧
    (∀ (cl : client) (size : Nat) (blasted : Bool) (r1 : clientstats),
      r.totalBytesIn + size < 18446744073709551616 →
      r.totalNumMessagesIn + 1 < 18446744073709551616 →
      stats_of (IncrementClient cfg g cl size blasted).1.clientdata p = some r1 →
      r.totalBytesIn ≤ r1.totalBytesIn ∧ r.totalNumMessagesIn ≤ r1.totalNumMessagesIn) ∧
    (∀ (now : Int) (env : DisconnectEnv) (r1 : clientstats),
      stats_of (OnTimerTick lw_addr_prettystring cfg g now env).1.clientdata p = some r1 →
      r.totalBytesIn ≤ r1.totalBytesIn ∧ r.totalNumMessagesIn ≤ r1.totalNumMessagesIn) := by
  refine ⟨?_, ?_, ?_, ?_, ?_⟩
  · intro senderclient blasted subchannel data variant now env r1 hfit1 hfit2 h1
    exact totals_OnServerMessage lw_addr_prettystring g senderclient blasted subchannel data
      variant now env p r r1 hnd hr hfit1 hfit2 h1
  · intro senderclient channel_clientcount blasted data r1 hfit1 hfit2 h1
    rcases OnChannelMessage_clientdata cfg g senderclient channel_clientcount blasted data
      with h | h
    · rw [h, hr] at h1
      cases h1
      exact ⟨le_refl _, le_refl _⟩
    · rw [h] at h1
      exact totals_IncrementClient cfg
        { g with
          numMessagesIn := to_size_t (g.numMessagesIn + 1),
          bytesIn := to_size_t (g.bytesIn + data.length) }
        senderclient data.length blasted p r r1 hr hfit1 hfit2 h1
  · intro senderclient blasted data r1 hfit1 hfit2 h1
    rcases OnPeerMessage_clientdata cfg g senderclient blasted data with h | h
    · rw [h, hr] at h1
      cases h1
      exact ⟨le_refl _, le_refl _⟩
    · rw [h] at h1
      exact totals_IncrementClient cfg
        { g with
          numMessagesIn := to_size_t (g.numMessagesIn + 1),
          bytesIn := to_size_t (g.bytesIn + data.length) }
        senderclient data.length blasted p r r1 hr hfit1 hfit2 h1
  · intro cl size blasted r1 hfit1 hfit2 h1
    exact totals_IncrementClient cfg g cl size blasted p r r1 hr hfit1 hfit2 h1
  · intro now env r1 h1
    exact totals_OnTimerTick lw_addr_prettystring cfg g now env p r r1 hnd hr h1

/-- C17 for the client connected from 10.0.0.7: a dropped server message of 3
bytes takes its totals from 0 and 0 to 3 and 1, and a timer tick leaves them
at 0. -/
theorem C17_totals_non_decreasing_witness :
    stats_of visitor_connected.clientdata visitor.ptr = some (clientstats.new visitor) ∧
    (∀ r1,
      stats_of
        (OnServerMessage id visitor_connected visitor false 2 [1, 2, 3] 0 20
          handler_skipped).1.clientdata visitor.ptr = some r1 →
      (clientstats.new visitor).totalBytesIn ≤ r1.totalBytesIn ∧
        (clientstats.new visitor).totalNumMessagesIn ≤ r1.totalNumMessagesIn) ∧
    (stats_of
        (OnServerMessage id visitor_connected visitor false 2 [1, 2, 3] 0 20
          handler_skipped).1.clientdata visitor.ptr).map
      (fun r1 => (r1.totalBytesIn, r1.totalNumMessagesIn)) = some (3, 1) ∧
    (∀ r1,
      stats_of (OnTimerTick id capped visitor_connected 30 handler_skipped).1.clientdata
        visitor.ptr = some r1 →
      (clientstats.new visitor).totalBytesIn ≤ r1.totalBytesIn ∧
        (clientstats.new visitor).totalNumMessagesIn ≤ r1.totalNumMessagesIn) :=
  have h := C17_totals_non_decreasing id capped visitor_connected visitor.ptr
    (clientstats.new visitor) (by decide) (by decide)
  ⟨by decide,
   fun r1 h1 => h.1 visitor false 2 [1, 2, 3] 0 20 handler_skipped r1 (by decide)
     (by decide) h1,
   by decide,
   fun r1 h1 => h.2.2.2.2 30 handler_skipped r1 h1⟩

end Relay

/-! ## The terminating zero of a received datagram (C18) -/

namespace Lacewing

/-- C18, the code at the failing input: whatever `lwp_default_buffer_size` is,
the slot posts the whole array (`winsock_buffer.len` is the number of elements
of `buffer`), and for a completion that fills it, `bytes_transferred =
winsock_buffer.len`, the terminating zero is written at the index one past the
last element.  The write is inside the array exactly when `bytes_transferred`
is smaller than the posted length. -/
theorem C18_terminator_past_the_buffer (lwp_default_buffer_size : Nat) :
    (udp_receive_info_sizes lwp_default_buffer_size).winsock_buffer_len =
      (udp_receive_info_sizes lwp_default_buffer_size).buffer_elements ∧
    inside_buffer (udp_receive_info_sizes lwp_default_buffer_size)
      (terminator_index
        (udp_receive_info_sizes lwp_default_buffer_size).winsock_buffer_len) = false ∧
    ∀ bytes_transferred : Nat,
      inside_buffer (udp_receive_info_sizes lwp_default_buffer_size)
        (terminator_index bytes_transferred) =
      decide (bytes_transferred <
        (udp_receive_info_sizes lwp_default_buffer_size).winsock_buffer_len) := by
  refine ⟨rfl, ?_, fun _ => rfl⟩
  simp [inside_buffer, terminator_index, udp_receive_info_sizes]

end Lacewing

/-! ## Entries of the ban list per address (C19) -/

namespace Relay

/-- C19, the code at the failing input: two clients connect one after the
other from the address whose text `lw_addr_prettystring` shortens, each sends
4000 bytes over TCP with a cap of 3000, and a timer tick follows each.  The
second tick searches the ban list by the formatted text, does not find the
entry the first tick stored under the unformatted text, and appends a second
entry with the same `ip`. -/
theorem C19_two_entries_for_one_address :
    (run shorten_mapped capped Globals.start
      [Call.connect_request first_mapped 10 10 1 0,
       Call.peer_message first_mapped false upload_4000,
       Call.timer_tick 100 handler_runs,
       Call.connect_request second_mapped 200 200 1 0,
       Call.peer_message second_mapped false upload_4000,
       Call.timer_tick 300 handler_runs]).banIPList.map (fun b => (b.ip, b.disconnects)) =
      [("[::ffff:10.0.0.7]", 1), ("[::ffff:10.0.0.7]", 1)] ∧
    ¬ ((run shorten_mapped capped Globals.start
      [Call.connect_request first_mapped 10 10 1 0,
       Call.peer_message first_mapped false upload_4000,
       Call.timer_tick 100 handler_runs,
       Call.connect_request second_mapped 200 200 1 0,
       Call.peer_message second_mapped false upload_4000,
       Call.timer_tick 300 handler_runs]).banIPList.map (fun b => b.ip)).Nodup := by
  have hlen : upload_4000.length = 4000 := by
    unfold upload_4000
    exact List.length_replicate 4000 0
  have hrun : run shorten_mapped capped Globals.start
      [Call.connect_request first_mapped 10 10 1 0,
       Call.peer_message first_mapped false upload_4000,
       Call.timer_tick 100 handler_runs,
       Call.connect_request second_mapped 200 200 1 0,
       Call.peer_message second_mapped false upload_4000,
       Call.timer_tick 300 handler_runs] =
      (OnTimerTick shorten_mapped capped
        (OnPeerMessage capped
          (run shorten_mapped capped
            (run shorten_mapped capped Globals.start
              [Call.connect_request first_mapped 10 10 1 0,
               Call.peer_message first_mapped false upload_4000])
            [Call.timer_tick 100 handler_runs,
             Call.connect_request second_mapped 200 200 1 0])
          second_mapped false upload_4000).1 300 handler_runs).1 := rfl
  have hmid : run shorten_mapped capped first_exceeded
      [Call.timer_tick 100 handler_runs,
       Call.connect_request second_mapped 200 200 1 0] = second_connected := by
    decide
  have hpeer : (OnPeerMessage capped second_connected second_mapped false upload_4000).1 =
      { second_connected with
        clientdata :=
          [{ c := second_mapped, totalBytesIn := 4000, totalNumMessagesIn := 1,
             wastedServerMessages := 0, bytesIn := 4000, numMessagesIn := 0,
             exceeded := true }],
        numMessagesIn := 1, bytesIn := 4000 } := by
    unfold OnPeerMessage IncrementClient
    rw [hlen]
    decide
  rw [hrun, first_exceeded_reached.1, hmid, hpeer]
  decide

/-! ## Per-client counting of server messages (C20) -/

/-- C20, the code at the failing input: the client connected from 10.0.0.7
sends a server message of 3 bytes on subchannel 0 that `OnServerMessage`
accepts.  The global `numMessagesIn` and `bytesIn` go up by 1 and 3, the
client's `totalNumMessagesIn` and `totalBytesIn` stay at 0.  The same 3 bytes
as a dropped server message or as a peer message are counted for the client. -/
theorem C20_accepted_server_message_not_counted :
    (OnServerMessage id visitor_connected visitor false 0 [1, 2, 3] 0 20
        handler_skipped).2 = [Effect.message_from_client 1] ∧
    (visitor_connected.numMessagesIn, visitor_connected.bytesIn) = (0, 0) ∧
    ((OnServerMessage id visitor_connected visitor false 0 [1, 2, 3] 0 20
        handler_skipped).1.numMessagesIn,
     (OnServerMessage id visitor_connected visitor false 0 [1, 2, 3] 0 20
        handler_skipped).1.bytesIn) = (1, 3) ∧
    (stats_of visitor_connected.clientdata visitor.ptr).map
      (fun r => (r.totalNumMessagesIn, r.totalBytesIn)) = some (0, 0) ∧
    (stats_of
        (OnServerMessage id visitor_connected visitor false 0 [1, 2, 3] 0 20
          handler_skipped).1.clientdata visitor.ptr).map
      (fun r => (r.totalNumMessagesIn, r.totalBytesIn)) = some (0, 0) ∧
    (stats_of
        (OnServerMessage id visitor_connected visitor false 2 [1, 2, 3] 0 20
          handler_skipped).1.clientdata visitor.ptr).map
      (fun r => (r.totalNumMessagesIn, r.totalBytesIn)) = some (1, 3) ∧
    (stats_of
        (OnPeerMessage uncapped visitor_connected visitor false [1, 2, 3]).1.clientdata
        visitor.ptr).map
      (fun r => (r.totalNumMessagesIn, r.totalBytesIn)) = some (1, 3) := by
  decide

end Relay
